import Mathlib

/-!
A shallow embedding of the pattern-matching engine in `src/src/lex.h`
(namespace `pg::lex`, a C++ port of Lua's pattern matcher).

Code units are modelled as natural numbers (the code always compares
units through casts to unsigned types).  The subject and the pattern are
lists of code units indexed by natural-number positions; reading the
pattern at or past its end yields 0, modelling the NUL unit that
terminates the string literals the library is used with.  Reading the
subject at or past its end yields the distinguished value `Env.oob`:
the engine is supposed never to perform such a read, so making the
value a parameter lets theorems state (or refute) that the observable
behaviour is independent of it.

The matcher proper (`detail::match` and its mutually recursive helpers)
mutates a `match_state`; here the immutable part (subject, pattern, oob
unit) is the `Env`, the mutable capture data is the `St` that every
function threads through and returns, and errors (C++ exceptions) are
an `Except` layer that also carries the state left behind at the point
of the throw.  The recursion-depth sentinel of `detail::match` is only
declared in `src/src/lex.h` (its constructor and destructor live in a
source file that is not part of `src/`), so it is modelled from the
spec as an explicit budget parameter `d`, decremented at each nested
entry and checked against exhaustion; being a read-only parameter, it
is structurally restored on every exit path, which is exactly the
scope-exit guarantee the spec describes.
-/

namespace Lex

/-- Error codes of `pg::lex::error_type` (src/src/lex.h lines 101-114). -/
inductive ErrT where
  | pattern_too_complex
  | pattern_ends_with_percent
  | pattern_missing_closing_bracket
  | balanced_no_arguments
  | frontier_no_open_bracket
  | capture_too_many
  | capture_invalid_pattern
  | capture_invalid_index
  | capture_not_finished
  | capture_out_of_range
  | percent_invalid_use_in_replacement
deriving DecidableEq, Repr

/-- One capture slot (`detail::capture`): a start position into the subject
(`init`, a pointer in the C++) and a length that is `-1` for
`cap_state::unfinished`, `-2` for `cap_state::position`, and the capture
length otherwise.  The null pointer of a default-constructed capture is
modelled as position 0; the engine never compares `init` against null. -/
structure Capture where
  init : Nat
  len : Int
deriving DecidableEq, Repr

instance : Inhabited Capture := ⟨⟨0, -1⟩⟩

/-- The immutable data of one match attempt: subject view, pattern view
(already stripped of a leading anchor), and the unit produced by an
out-of-bounds subject read. -/
structure Env where
  subject : List Nat
  pattern : List Nat
  oob : Nat
deriving DecidableEq, Repr

/-- The mutable capture data of `detail::match_state`: the capture count
`level` and the capture-slot array (32 slots in the drivers). -/
structure St where
  level : Nat
  captures : List Capture
deriving DecidableEq, Repr

/-- Outcome of a matcher routine: an error (C++ exception) or an optional
subject end position (`nullptr` = ordinary failure), together with the
state as left behind by the routine. -/
abbrev Res := Except ErrT (Option Nat) × St

/-- `MAXCCALLS` (src/src/lex.h line 37): matcher recursion budget. -/
def MAXCCALLS : Nat := 200

/-- `MAXCAPTURES` (src/src/lex.h line 42). -/
def MAXCAPTURES : Nat := 32

/-- Read a subject unit; out of bounds yields the `oob` unit. -/
def sread (env : Env) (i : Nat) : Nat := env.subject.getD i env.oob

/-- Read a pattern unit; out of bounds yields 0 (NUL). -/
def pread (env : Env) (i : Nat) : Nat := env.pattern.getD i 0

theorem pread_ne_zero_lt (env : Env) (p : Nat) (h : pread env p ≠ 0) :
    p < env.pattern.length := by
  by_contra hc
  exact h (List.getD_eq_default _ _ (Nat.le_of_not_lt hc))

/-- ASCII classification over the fixed 0-255 table.

Modelled from the spec: `match_class` is only declared in
`src/src/lex.h` (line 296); its definition lives outside `src/`.
Per spec section 4.1: classes alphabetic, control, digit, lowercase,
punctuation, space, uppercase, alnum ("word") and hex-digit are selected
by the corresponding lowercase letter; an uppercase selector letter
negates the corresponding lowercase class; any other selector matches
only that exact code unit; the table covers units 0-255, units outside
that range fail every class. -/
def isalphaU (c : Nat) : Bool := (65 ≤ c && c ≤ 90) || (97 ≤ c && c ≤ 122)

def iscntrlU (c : Nat) : Bool := c ≤ 31 || c == 127

def isdigitU (c : Nat) : Bool := 48 ≤ c && c ≤ 57

def islowerU (c : Nat) : Bool := 97 ≤ c && c ≤ 122

def ispunctU (c : Nat) : Bool :=
  (33 ≤ c && c ≤ 47) || (58 ≤ c && c ≤ 64) || (91 ≤ c && c ≤ 96) || (123 ≤ c && c ≤ 126)

def isspaceU (c : Nat) : Bool := (9 ≤ c && c ≤ 13) || c == 32

def isupperU (c : Nat) : Bool := 65 ≤ c && c ≤ 90

def isalnumU (c : Nat) : Bool := isalphaU c || isdigitU c

def isxdigitU (c : Nat) : Bool :=
  isdigitU c || (97 ≤ c && c ≤ 102) || (65 ≤ c && c ≤ 70)

/-- Modelled from the spec: dispatch of `match_class` (see the comment on
the class predicates above). -/
def match_class (c cl : Nat) : Bool :=
  if cl = 97 then isalphaU c
  else if cl = 65 then !isalphaU c
  else if cl = 99 then iscntrlU c
  else if cl = 67 then !iscntrlU c
  else if cl = 100 then isdigitU c
  else if cl = 68 then !isdigitU c
  else if cl = 108 then islowerU c
  else if cl = 76 then !islowerU c
  else if cl = 112 then ispunctU c
  else if cl = 80 then !ispunctU c
  else if cl = 115 then isspaceU c
  else if cl = 83 then !isspaceU c
  else if cl = 117 then isupperU c
  else if cl = 85 then !isupperU c
  else if cl = 119 then isalnumU c
  else if cl = 87 then !isalnumU c
  else if cl = 120 then isxdigitU c
  else if cl = 88 then !isxdigitU c
  else cl == c

/-- Scan of a bracket expression, `detail::classend` case `'['`
(src/src/lex.h lines 311-328): the do-while loop looking for the
closing `]`, with `%` escaping the following unit.  The C++ end test is
`p == p_end`; it is modelled as `p_end ≤ p` so that the function is
total, which agrees with the code at every position the scan can
actually reach (the scan enters at a position at most one past the
`[`, which itself is inside the pattern, and advances towards the end
test). -/
def bracketScan (env : Env) (q : Nat) : Except ErrT Nat :=
  if env.pattern.length ≤ q then .error .pattern_missing_closing_bracket
  else if pread env q = 37 ∧ q + 1 < env.pattern.length then
    if pread env (q + 2) = 93 then .ok (q + 3) else bracketScan env (q + 2)
  else
    if pread env (q + 1) = 93 then .ok (q + 2) else bracketScan env (q + 1)
termination_by env.pattern.length - q

theorem bracketScan_bounds (env : Env) :
    ∀ n q v, env.pattern.length - q ≤ n → bracketScan env q = .ok v →
      q < v ∧ v ≤ env.pattern.length := by
  intro n
  induction n with
  | zero =>
    intro q v hn h
    unfold bracketScan at h
    split at h
    · cases h
    · omega
  | succ n ih =>
    intro q v hn h
    unfold bracketScan at h
    split at h
    · cases h
    · rename_i hq
      split at h
      · split at h
        · rename_i hesc hcl
          simp only [Except.ok.injEq] at h
          have : q + 2 < env.pattern.length := pread_ne_zero_lt env _ (by rw [hcl]; omega)
          omega
        · have := ih (q + 2) v (by omega) h
          omega
      · split at h
        · rename_i hesc hcl
          simp only [Except.ok.injEq] at h
          have : q + 1 < env.pattern.length := pread_ne_zero_lt env _ (by rw [hcl]; omega)
          omega
        · have := ih (q + 1) v (by omega) h
          omega

/-- `detail::classend` (src/src/lex.h lines 299-333): returns the
position just past one pattern item (before any repetition suffix). -/
def classend (env : Env) (p : Nat) : Except ErrT Nat :=
  if pread env p = 37 then
    if p + 1 = env.pattern.length then .error .pattern_ends_with_percent
    else .ok (p + 2)
  else if pread env p = 91 then
    if pread env (p + 1) = 94 then bracketScan env (p + 2)
    else bracketScan env (p + 1)
  else .ok (p + 1)

theorem classend_gt (env : Env) (p ep : Nat) (h : classend env p = .ok ep) :
    p < ep := by
  unfold classend at h
  split at h
  · split at h
    · cases h
    · simp only [Except.ok.injEq] at h
      omega
  · split at h
    · split at h <;>
        · have := bracketScan_bounds env (env.pattern.length) _ _ (by omega) h
          omega
    · simp only [Except.ok.injEq] at h
      omega

theorem classend_le (env : Env) (p ep : Nat) (hp : pread env p ≠ 0)
    (h : classend env p = .ok ep) : ep ≤ env.pattern.length := by
  have hlt := pread_ne_zero_lt env p hp
  unfold classend at h
  split at h
  · split at h
    · cases h
    · simp only [Except.ok.injEq] at h
      omega
  · split at h
    · split at h <;>
        · have := bracketScan_bounds env (env.pattern.length) _ _ (by omega) h
          omega
    · simp only [Except.ok.injEq] at h
      omega

/-- Membership loop of `detail::matchbracketclass`
(src/src/lex.h lines 350-374): `q` is the position before the
pre-increment of the C++ `while (++p < ep)`. -/
def brkLoop (env : Env) (c : Nat) (q ep : Nat) (ret : Bool) : Bool :=
  if q + 1 < ep then
    if pread env (q + 1) = 37 then
      if match_class c (pread env (q + 2)) then ret
      else brkLoop env c (q + 2) ep ret
    else if pread env (q + 2) = 45 ∧ q + 3 < ep then
      if pread env (q + 1) ≤ c ∧ c ≤ pread env (q + 3) then ret
      else brkLoop env c (q + 3) ep ret
    else if pread env (q + 1) = c then ret
    else brkLoop env c (q + 1) ep ret
  else !ret
termination_by ep - q

/-- `detail::matchbracketclass` (src/src/lex.h lines 336-376): tests unit
`c` against the bracket expression starting at `p` (at the `[`) and
ending just before `ep`. -/
def matchbracketclass (env : Env) (c : Nat) (p ep : Nat) : Bool :=
  if pread env (p + 1) = 94 then brkLoop env c (p + 1) ep false
  else brkLoop env c p ep true

/-- `detail::singlematch` (src/src/lex.h lines 379-406): one subject unit
against one pattern item; fails at or past subject end. -/
def singlematch (env : Env) (s p ep : Nat) : Bool :=
  if s < env.subject.length then
    if pread env p = 46 then true
    else if pread env p = 37 then match_class (sread env s) (pread env (p + 1))
    else if pread env p = 91 then matchbracketclass env (sread env s) p (ep - 1)
    else decide (pread env p = sread env s)
  else false

theorem singlematch_lt (env : Env) (s p ep : Nat)
    (h : singlematch env s p ep = true) : s < env.subject.length := by
  unfold singlematch at h
  by_contra hc
  rw [if_neg hc] at h
  cases h

/-- Balanced scan of `detail::matchbalance`
(src/src/lex.h lines 425-438): the `while (++s < s_end)` loop; `b` and
`e` are the two delimiter units, `count` the nesting count. -/
def balScan (env : Env) (b e : Nat) (s count : Nat) : Option Nat :=
  if s + 1 < env.subject.length then
    if sread env (s + 1) = e then
      if count = 1 then some (s + 2) else balScan env b e (s + 1) (count - 1)
    else if sread env (s + 1) = b then balScan env b e (s + 1) (count + 1)
    else balScan env b e (s + 1) count
  else none
termination_by env.subject.length - s

theorem balScan_bounds (env : Env) (b e : Nat) :
    ∀ n s count r, env.subject.length - s ≤ n →
      balScan env b e s count = some r →
      s + 2 ≤ r ∧ r ≤ env.subject.length := by
  intro n
  induction n with
  | zero =>
    intro s count r hn h
    unfold balScan at h
    split at h
    · omega
    · cases h
  | succ n ih =>
    intro s count r hn h
    unfold balScan at h
    split at h
    · rename_i hlt
      split at h
      · split at h
        · simp only [Option.some.injEq] at h
          omega
        · have := ih (s + 1) (count - 1) r (by omega) h
          omega
      · split at h
        · have := ih (s + 1) (count + 1) r (by omega) h
          omega
        · have := ih (s + 1) count r (by omega) h
          omega
    · cases h

/-- `detail::matchbalance` (src/src/lex.h lines 409-441): `p` points at
the first of the two delimiter units (`p + 2` at the call site).  Note
the guard is `p >= p_end`, so a single remaining delimiter unit raises
no error, and the current subject unit is read unguarded. -/
def matchbalance (env : Env) (s p : Nat) : Except ErrT (Option Nat) :=
  if env.pattern.length ≤ p then .error .balanced_no_arguments
  else if sread env s ≠ pread env p then .ok none
  else .ok (balScan env (pread env p) (pread env (p + 1)) s 1)

theorem matchbalance_bounds (env : Env) (s p r : Nat)
    (h : matchbalance env s p = .ok (some r)) :
    s + 2 ≤ r ∧ r ≤ env.subject.length := by
  unfold matchbalance at h
  split at h
  · cases h
  · split at h
    · cases h
    · simp only [Except.ok.injEq] at h
      exact balScan_bounds env _ _ (env.subject.length) s 1 r (by omega) h

/-- Equality of `len` subject units starting at `i` and at `j`
(the `memcmp` in `detail::match_capture`). -/
def sliceEq (env : Env) (i j len : Nat) : Bool :=
  decide ((env.subject.drop i).take len = (env.subject.drop j).take len)

/-- The stored capture length as the C++ `size_t` cast sees it: the
`long` value reduced modulo 2^64. -/
def capLenZ (st : St) (c : Nat) : Nat :=
  (((st.captures.getD (c - 49) default).len) % (2 ^ 64 : Int)).toNat

/-- `detail::match_capture` (src/src/lex.h lines 547-566): backreference
`%c` for a digit unit `c`.  The slot index is `c - '1'`; an index
outside `[0, level)` or an unfinished slot raises
`capture_invalid_index`.  The stored length, a C++ `long`, is cast to
`size_t`, i.e. reduced modulo 2^64; for a position capture (`len = -2`)
this yields a huge length whose comparison against the remaining
subject fails. -/
def match_capture (env : Env) (st : St) (s c : Nat) : Except ErrT (Option Nat) :=
  if c < 49 ∨ st.level ≤ c - 49 ∨ (st.captures.getD (c - 49) default).len = -1 then
    .error .capture_invalid_index
  else if capLenZ st c ≤ env.subject.length - s ∧
      sliceEq env (st.captures.getD (c - 49) default).init s (capLenZ st c) = true then
    .ok (some (s + capLenZ st c))
  else .ok none

theorem match_capture_bounds (env : Env) (st : St) (s c r : Nat)
    (h : match_capture env st s c = .ok (some r)) :
    s ≤ r ∧ (s ≤ env.subject.length → r ≤ env.subject.length) := by
  unfold match_capture at h
  split at h
  · cases h
  · split at h
    · simp only [Except.ok.injEq, Option.some.injEq] at h
      rename_i hc
      constructor
      · omega
      · intro hs
        omega
    · cases h

/-- Replace the `len` field of slot `i` (the C++ `captures[i].len = v`). -/
def setLen (caps : List Capture) (i : Nat) (v : Int) : List Capture :=
  caps.set i ⟨(caps.getD i default).init, v⟩

/-- Scan of `detail::end_capture` (src/src/lex.h lines 525-541) for the
highest-indexed unfinished slot below `level`. -/
def highestUnfinished (caps : List Capture) : Nat → Option Nat
  | 0 => none
  | l + 1 => if (caps.getD l default).len = -1 then some l
             else highestUnfinished caps l

/-- The counting loop of `detail::max_expand` (src/src/lex.h lines
447-451): length of the longest run of units matching the item from
position `s`. -/
def countRun (env : Env) (s p ep : Nat) : Nat :=
  if h : singlematch env s p ep = true then countRun env (s + 1) p ep + 1
  else 0
termination_by env.subject.length - s
decreasing_by
  have := singlematch_lt env s p ep h
  omega

mutual

/-- `detail::match` entry (src/src/lex.h lines 570-572): the recursion
budget `d` models the `matchdepth_sentinel`; an exhausted budget raises
`pattern_too_complex`, otherwise the dispatch body runs with the
decremented budget. -/
def lexMatch (d : Nat) (env : Env) (st : St) (s p : Nat) : Res :=
  if d = 0 then (.error .pattern_too_complex, st)
  else matchBody (d - 1) env st s p
termination_by (d, 0, 0, 0)
decreasing_by
  apply Prod.Lex.left
  omega

/-- Dispatch of `detail::match` (src/src/lex.h lines 574-690).  The
C++ `goto init` tail loops become recursive calls at the same budget.
Note that a backreference whose capture text does not match falls
through into the default item handling (the inner `switch` `break`
lands on the `default:` label), exactly as the port does. -/
def matchBody (d : Nat) (env : Env) (st : St) (s p : Nat) : Res :=
  if p = env.pattern.length then (.ok (some s), st)
  else if pread env p = 40 then startCapture d env st s (p + 1)
  else if pread env p = 41 then endCapture d env st s (p + 1)
  else if pread env p = 36 ∧ p + 1 = env.pattern.length then
    (if s = env.subject.length then (.ok (some s), st) else (.ok none, st))
  else if hb : pread env p = 37 ∧ pread env (p + 1) = 98 then
    match hmb : matchbalance env s (p + 2) with
    | .error e => (.error e, st)
    | .ok none => (.ok none, st)
    | .ok (some r) => matchBody d env st r (p + 4)
  else if hf : pread env p = 37 ∧ pread env (p + 1) = 102 then
    if h91 : pread env (p + 2) ≠ 91 then (.error .frontier_no_open_bracket, st)
    else match hce : classend env (p + 2) with
      | .error e => (.error e, st)
      | .ok ep =>
        if ¬ matchbracketclass env (if s = 0 then 0 else sread env (s - 1)) (p + 2) (ep - 1) = true
            ∧ matchbracketclass env (sread env s) (p + 2) (ep - 1) = true
        then matchBody d env st s ep
        else (.ok none, st)
  else if hg : pread env p = 37 ∧ 48 ≤ pread env (p + 1) ∧ pread env (p + 1) ≤ 57 then
    match hmc : match_capture env st s (pread env (p + 1)) with
    | .error e => (.error e, st)
    | .ok (some r) => matchBody d env st r (p + 2)
    | .ok none => dflt d env st s p
  else dflt d env st s p
termination_by
  (d, 2, (env.pattern.length + 2 - p) + 2 * (env.subject.length + 1 - s), 1)
decreasing_by
  · apply Prod.Lex.right
    apply Prod.Lex.left
    omega
  · apply Prod.Lex.right
    apply Prod.Lex.left
    omega
  · have h1 : p + 1 < env.pattern.length :=
      pread_ne_zero_lt env (p + 1) (by rw [hb.2]; omega)
    have h2 := matchbalance_bounds env s (p + 2) r hmb
    apply Prod.Lex.right
    apply Prod.Lex.right
    apply Prod.Lex.left
    omega
  · have h1 : p + 2 < env.pattern.length :=
      pread_ne_zero_lt env (p + 2) (by omega)
    have h2 := classend_gt env (p + 2) ep hce
    have h3 := classend_le env (p + 2) ep (by omega) hce
    apply Prod.Lex.right
    apply Prod.Lex.right
    apply Prod.Lex.left
    omega
  · have h1 : p + 1 < env.pattern.length :=
      pread_ne_zero_lt env (p + 1) (by omega)
    have h2 := match_capture_bounds env st s (pread env (p + 1)) r hmc
    apply Prod.Lex.right
    apply Prod.Lex.right
    apply Prod.Lex.left
    omega
  · apply Prod.Lex.right
    apply Prod.Lex.right
    apply Prod.Lex.right
    omega
  · apply Prod.Lex.right
    apply Prod.Lex.right
    apply Prod.Lex.right
    omega

/-- The `default:`/`dflt:` arm of `detail::match` (src/src/lex.h lines
643-685): one pattern item with its optional repetition suffix. -/
def dflt (d : Nat) (env : Env) (st : St) (s p : Nat) : Res :=
  match hce : classend env p with
  | .error e => (.error e, st)
  | .ok ep =>
    if hsm : singlematch env s p ep = true then
      if pread env ep = 63 then
        match lexMatch d env st (s + 1) (ep + 1) with
        | (.ok none, st2) => matchBody d env st2 s (ep + 1)
        | r => r
      else if pread env ep = 43 then maxExpand d env st (s + 1) p ep
      else if pread env ep = 42 then maxExpand d env st s p ep
      else if pread env ep = 45 then minExpand d env st s p ep
      else matchBody d env st (s + 1) ep
    else
      if hsfx : pread env ep = 42 ∨ pread env ep = 63 ∨ pread env ep = 45 then
        matchBody d env st s (ep + 1)
      else (.ok none, st)
termination_by
  (d, 2, (env.pattern.length + 2 - p) + 2 * (env.subject.length + 1 - s), 0)
decreasing_by
  · apply Prod.Lex.right
    apply Prod.Lex.left
    omega
  · rename_i hq63
    have h1 := classend_gt env p ep hce
    have h2 : ep < env.pattern.length :=
      pread_ne_zero_lt env ep (by rw [hq63]; omega)
    apply Prod.Lex.right
    apply Prod.Lex.right
    apply Prod.Lex.left
    omega
  · apply Prod.Lex.right
    apply Prod.Lex.left
    omega
  · apply Prod.Lex.right
    apply Prod.Lex.left
    omega
  · apply Prod.Lex.right
    apply Prod.Lex.left
    omega
  · have h1 := classend_gt env p ep hce
    have h2 := singlematch_lt env s p ep hsm
    apply Prod.Lex.right
    apply Prod.Lex.right
    apply Prod.Lex.left
    omega
  · have h1 := classend_gt env p ep hce
    have h2 : ep < env.pattern.length :=
      pread_ne_zero_lt env ep (by
        intro hz
        rw [hz] at hsfx
        omega)
    apply Prod.Lex.right
    apply Prod.Lex.right
    apply Prod.Lex.left
    omega

/-- `detail::start_capture` (src/src/lex.h lines 487-519): `p` points
just past the `(`.  Records the start, marks the slot `Position` when
the next pattern unit is `)` (consuming it) and `Unfinished` otherwise,
increments `level`, and on failure of the remainder decrements `level`
and resets only the slot's `len` to `Unfinished`. -/
def startCapture (d : Nat) (env : Env) (st : St) (s p : Nat) : Res :=
  if MAXCAPTURES ≤ st.level then (.error .capture_too_many, st)
  else
    match lexMatch d env
        ⟨st.level + 1,
          st.captures.set st.level ⟨s, if pread env p = 41 then -2 else -1⟩⟩
        s (if pread env p = 41 then p + 1 else p) with
    | (.ok none, st2) =>
      (.ok none, ⟨st2.level - 1, setLen st2.captures (st2.level - 1) (-1)⟩)
    | r => r
termination_by (d, 1, 0, 0)
decreasing_by
  apply Prod.Lex.right
  apply Prod.Lex.left
  omega

/-- `detail::end_capture` (src/src/lex.h lines 522-544): finishes the
highest-indexed unfinished slot with length `s - init`, and reverts it
to `Unfinished` when the remainder fails; no unfinished slot raises
`capture_invalid_pattern`. -/
def endCapture (d : Nat) (env : Env) (st : St) (s p : Nat) : Res :=
  match highestUnfinished st.captures st.level with
  | none => (.error .capture_invalid_pattern, st)
  | some i =>
    match lexMatch d env
        ⟨st.level,
          setLen st.captures i ((s : Int) - ((st.captures.getD i default).init : Int))⟩
        s p with
    | (.ok none, st2) => (.ok none, ⟨st2.level, setLen st2.captures i (-1)⟩)
    | r => r
termination_by (d, 1, 0, 0)
decreasing_by
  apply Prod.Lex.right
  apply Prod.Lex.left
  omega

/-- `detail::max_expand` (src/src/lex.h lines 444-463): count the run of
matching units, then try continuations from the largest expansion down. -/
def maxExpand (d : Nat) (env : Env) (st : St) (s p ep : Nat) : Res :=
  maxTry d env st s ep (countRun env s p ep)
termination_by (d, 1, 1, 0)
decreasing_by
  apply Prod.Lex.right
  apply Prod.Lex.right
  apply Prod.Lex.left
  omega

/-- The countdown loop of `detail::max_expand` (src/src/lex.h lines
453-460): try the continuation after `i` repetitions, then `i - 1`,
down to 0. -/
def maxTry (d : Nat) (env : Env) (st : St) (s ep i : Nat) : Res :=
  match lexMatch d env st (s + i) (ep + 1) with
  | (.ok none, st2) =>
    if i = 0 then (.ok none, st2) else maxTry d env st2 s ep (i - 1)
  | r => r
termination_by (d, 1, 0, i)
decreasing_by
  · apply Prod.Lex.right
    apply Prod.Lex.left
    omega
  · apply Prod.Lex.right
    apply Prod.Lex.right
    apply Prod.Lex.right
    omega

/-- `detail::min_expand` (src/src/lex.h lines 466-484): try the
continuation immediately; on failure consume one matching unit and
retry; fail once the item itself no longer matches. -/
def minExpand (d : Nat) (env : Env) (st : St) (s p ep : Nat) : Res :=
  match lexMatch d env st s (ep + 1) with
  | (.ok none, st2) =>
    if h : singlematch env s p ep = true then minExpand d env st2 (s + 1) p ep
    else (.ok none, st2)
  | r => r
termination_by (d, 1, 0, env.subject.length + 1 - s)
decreasing_by
  · apply Prod.Lex.right
    apply Prod.Lex.left
    omega
  · have := singlematch_lt env s p ep h
    apply Prod.Lex.right
    apply Prod.Lex.right
    apply Prod.Lex.right
    omega

end

/-- Immutable snapshot returned by the drivers, `pg::lex::basic_match_result`
(src/src/lex.h lines 133-237): match span indices (`-1, -1` when no
match), capture count `level`, and the capture-slot array. -/
structure MatchResult where
  pos : Int × Int
  level : Nat
  captures : List Capture
deriving DecidableEq, Repr

/-- `basic_match_result::size` (src/src/lex.h line 202): the externally
reported capture count is `level`. -/
def MatchResult.size (mr : MatchResult) : Nat := mr.level

/-- `basic_match_result::operator bool` (src/src/lex.h line 207). -/
def MatchResult.toBool (mr : MatchResult) : Bool := decide (0 < mr.level)

/-- A default-constructed `basic_match_result`'s mutable part: level 0,
`MAXCAPTURES` slots with null `init` and unfinished `len`. -/
def initSt : St := ⟨0, List.replicate MAXCAPTURES ⟨0, -1⟩⟩

/-- `detail::match_state::reprepstate` (src/src/lex.h lines 266-272) as it
acts on the capture data: `level` is reset to 0 (the slot array is kept);
the position pair, owned by the drivers here, is reset separately. -/
def reprep (st : St) : St := ⟨0, st.captures⟩

/-- `detail::match_state::check_captures` (src/src/lex.h lines 274-280):
is any slot below `level` still unfinished? -/
def hasUnfinished (caps : List Capture) (level : Nat) : Bool :=
  (caps.take level).any (fun c => c.len == -1)

/-- The synthetic whole-match capture installed by the drivers on success
with `level == 0` (src/src/lex.h lines 843-847, 899-903, 1048-1052,
1134-1138): slot 0 becomes the whole match and `level` becomes 1. -/
def installWholeMatch (st : St) (s e : Nat) : St :=
  if st.level = 0 then ⟨1, st.captures.set 0 ⟨s, (e : Int) - (s : Int)⟩⟩
  else st

/-- `detail::pattern_context` (src/src/lex.h lines 749-753): a leading `^`
is stripped and recorded as the anchor flag. -/
def stripAnchor : List Nat → List Nat × Bool
  | 94 :: rest => (rest, true)
  | p => (p, false)

/-- The search loop of `pg::lex::match` (src/src/lex.h lines 837-857):
try the core at each start offset in increasing order; stop at the
first success (validating the captures and installing the synthetic
whole-match capture when `level == 0`); when anchored stop after the
first attempt. -/
def searchLoop (env : Env) (anchor : Bool) (st : St) (s : Nat) :
    Except ErrT MatchResult :=
  match lexMatch MAXCCALLS env st s 0 with
  | (.error e, _) => .error e
  | (.ok (some e), st2) =>
    if hasUnfinished st2.captures st2.level then .error .capture_not_finished
    else
      let st3 := installWholeMatch st2 s e
      .ok ⟨((s : Int), (e : Int)), st3.level, st3.captures⟩
  | (.ok none, st2) =>
    if anchor then .ok ⟨(-1, -1), st2.level, st2.captures⟩
    else if s < env.subject.length then searchLoop env anchor (reprep st2) (s + 1)
    else .ok ⟨(-1, -1), 0, st2.captures⟩
termination_by env.subject.length + 1 - s

/-- `pg::lex::match` (src/src/lex.h lines 828-860). -/
def lexSearch (subject pattern : List Nat) (oob : Nat) : Except ErrT MatchResult :=
  searchLoop ⟨subject, (stripAnchor pattern).1, oob⟩ (stripAnchor pattern).2 initSt 0

/-- `pg::lex::gmatch_iterator` (src/src/lex.h lines 871-949): the context
(as the stripped pattern environment), the cursor, the end position of
the previous match (`nullptr` modelled as `none`), and the current
match result. -/
structure GIter where
  env : Env
  pos : Nat
  last : Option Nat
  mr : MatchResult
deriving DecidableEq, Repr

/-- `gmatch_iterator::operator==` (src/src/lex.h lines 917-920): compares
only the context and the cursor. -/
def gmatchIterEq (a b : GIter) : Prop := a.env = b.env ∧ a.pos = b.pos

/-- The loop of `gmatch_iterator::operator++` (src/src/lex.h lines
884-915): attempt the core at the cursor; on failure, or on a success
that ends where the previous match ended, advance the cursor by one
unit and retry; otherwise validate, install the synthetic whole-match
capture if needed, record the result and yield. -/
def gmatchLoop (env : Env) (st : St) (pos : Nat) (last : Option Nat) :
    Except ErrT GIter :=
  if pos ≤ env.subject.length then
    match lexMatch MAXCCALLS env st pos 0 with
    | (.error e, _) => .error e
    | (.ok none, st2) => gmatchLoop env (reprep st2) (pos + 1) none
    | (.ok (some e), st2) =>
      if some e = last then gmatchLoop env (reprep st2) (pos + 1) (some e)
      else if hasUnfinished st2.captures st2.level then .error .capture_not_finished
      else
        let st3 := installWholeMatch st2 pos e
        .ok ⟨env, e, some e, ⟨((pos : Int), (e : Int)), st3.level, st3.captures⟩⟩
  else .ok ⟨env, pos, last, ⟨(-1, -1), 0, st.captures⟩⟩
termination_by env.subject.length + 1 - pos

/-- `gmatch_iterator::operator++` (src/src/lex.h lines 884-915): the
constructed match state rebinds the iterator's result, so `reprepstate`
zeroes its level and position before the loop runs. -/
def gmatchStep (it : GIter) : Except ErrT GIter :=
  gmatchLoop it.env ⟨0, it.mr.captures⟩ it.pos it.last

/-- `pg::lex::begin` over a context (src/src/lex.h lines 960-965): an
iterator at the subject start, advanced once. -/
def gmatchBegin (subject pattern : List Nat) (oob : Nat) : Except ErrT GIter :=
  gmatchStep ⟨⟨subject, (stripAnchor pattern).1, oob⟩, 0, none,
    ⟨(-1, -1), 0, (initSt).captures⟩⟩

/-- `pg::lex::end` over a context (src/src/lex.h lines 974-978): an
iterator whose cursor is one past the subject end. -/
def gmatchEnd (subject pattern : List Nat) (oob : Nat) : GIter :=
  ⟨⟨subject, (stripAnchor pattern).1, oob⟩, subject.length + 1, none,
    ⟨(-1, -1), 0, (initSt).captures⟩⟩

/-! ### Invariants of the matcher core -/

/-- Well-formed capture data at subject position `s`: every meaningful
slot is finished with a non-negative length, a position, or unfinished
with its recorded start at or before `s`. -/
def capwf (st : St) (s : Nat) : Prop :=
  ∀ i, i < st.level →
    0 ≤ (st.captures.getD i default).len ∨
    (st.captures.getD i default).len = -2 ∨
    ((st.captures.getD i default).len = -1 ∧ (st.captures.getD i default).init ≤ s)

/-- What a failed (backtracked) core call leaves behind: the same level,
the same slots below `level`, and no slot newly un-unfinished. -/
def Frame (st st2 : St) : Prop :=
  st2.captures.length = st.captures.length ∧
  st2.level = st.level ∧
  (∀ i, i < st.level → st2.captures.getD i default = st.captures.getD i default) ∧
  (∀ i, (st.captures.getD i default).len = -1 →
    (st2.captures.getD i default).len = -1)

/-- Postcondition of every core routine, entered at state `st` with
lowest reachable subject position `lo` and with `hi` bounding every
subject position the routine may start an attempt at. -/
def Post (env : Env) (st : St) (lo hi : Nat) (out : Res) : Prop :=
  out.2.captures.length = st.captures.length ∧
  st.level ≤ out.2.level ∧
  (st.level ≤ MAXCAPTURES → out.2.level ≤ MAXCAPTURES) ∧
  (out.1 = Except.ok none → Frame st out.2) ∧
  (∀ e, out.1 = Except.ok (some e) → hi ≤ env.subject.length →
    lo ≤ e ∧ e ≤ env.subject.length ∧ (capwf st lo → capwf out.2 e))

theorem capwf_mono (st : St) (a b : Nat) (hab : a ≤ b) (h : capwf st a) :
    capwf st b := by
  intro i hi
  rcases h i hi with h1 | h1 | h1
  · exact Or.inl h1
  · exact Or.inr (Or.inl h1)
  · exact Or.inr (Or.inr ⟨h1.1, le_trans h1.2 hab⟩)

theorem frame_capwf (st st2 : St) (lo : Nat) (hfr : Frame st st2)
    (h : capwf st lo) : capwf st2 lo := by
  intro i hi
  rw [hfr.2.1] at hi
  rw [hfr.2.2.1 i hi]
  exact h i hi

theorem frame_trans (a b c : St) (h1 : Frame a b) (h2 : Frame b c) :
    Frame a c := by
  refine ⟨h2.1.trans h1.1, h2.2.1.trans h1.2.1, ?_, ?_⟩
  · intro i hi
    rw [h2.2.2.1 i (by rw [h1.2.1]; exact hi)]
    exact h1.2.2.1 i hi
  · intro i hl
    exact h2.2.2.2 i (h1.2.2.2 i hl)

theorem frame_refl (a : St) : Frame a a := ⟨rfl, rfl, fun _ _ => rfl, fun _ h => h⟩

theorem post_none_self (env : Env) (st : St) (lo hi : Nat) :
    Post env st lo hi (Except.ok none, st) := by
  refine ⟨rfl, le_refl _, fun h => h, fun _ => frame_refl st, ?_⟩
  intro e he
  cases he

theorem post_err_self (env : Env) (st : St) (lo hi : Nat) (e : ErrT) :
    Post env st lo hi (Except.error e, st) := by
  refine ⟨rfl, le_refl _, fun h => h, ?_, ?_⟩
  · intro h
    cases h
  · intro r hr
    cases hr

theorem post_some_self (env : Env) (st : St) (s : Nat) :
    Post env st s s (Except.ok (some s), st) := by
  refine ⟨rfl, le_refl _, fun h => h, ?_, ?_⟩
  · intro h
    cases h
  · intro e he hhi
    cases he
    exact ⟨le_refl s, hhi, fun h => h⟩

/-- Weaken a postcondition to an earlier entry position `lo1` and a
different attempt bound `hi1`. -/
theorem post_goto (env : Env) (st : St) (lo1 hi1 lo2 hi2 : Nat) (out : Res)
    (h : Post env st lo2 hi2 out) (hle : lo1 ≤ lo2)
    (him : hi1 ≤ env.subject.length → hi2 ≤ env.subject.length) :
    Post env st lo1 hi1 out := by
  refine ⟨h.1, h.2.1, h.2.2.1, h.2.2.2.1, ?_⟩
  intro e he hhi
  obtain ⟨h1, h2, h3⟩ := h.2.2.2.2 e he (him hhi)
  exact ⟨le_trans hle h1, h2, fun hw => h3 (capwf_mono st lo1 lo2 hle hw)⟩

/-- Compose a backtracked first call (leaving `Frame st st2`) with the
postcondition of the continuation from `st2`. -/
theorem post_seq (env : Env) (st st2 : St) (lo hi hi2 : Nat) (out : Res)
    (hfr : Frame st st2) (h : Post env st2 lo hi2 out)
    (hhi : hi ≤ env.subject.length → hi2 ≤ env.subject.length) :
    Post env st lo hi out := by
  refine ⟨h.1.trans hfr.1, hfr.2.1 ▸ h.2.1, hfr.2.1 ▸ h.2.2.1, ?_, ?_⟩
  · intro hn
    exact frame_trans st st2 out.2 hfr (h.2.2.2.1 hn)
  · intro e he hhi1
    obtain ⟨h1, h2, h3⟩ := h.2.2.2.2 e he (hhi hhi1)
    exact ⟨h1, h2, fun hw => h3 (frame_capwf st st2 lo hfr hw)⟩

theorem getD_set (l : List Capture) (i j : Nat) (c : Capture) :
    (l.set i c).getD j default =
      if i = j ∧ j < l.length then c else l.getD j default := by
  rw [List.getD_eq_getElem?_getD, List.getD_eq_getElem?_getD, List.getElem?_set]
  split
  · rename_i hij
    subst hij
    split
    · rename_i hlt
      rw [if_pos ⟨rfl, hlt⟩]
      rfl
    · rw [if_neg (by omega), List.getElem?_eq_none (by omega)]
  · rename_i hij
    rw [if_neg (fun hcon => hij hcon.1)]

theorem length_setLen (caps : List Capture) (i : Nat) (v : Int) :
    (setLen caps i v).length = caps.length := List.length_set caps i _

theorem getD_setLen (caps : List Capture) (i j : Nat) (v : Int) :
    (setLen caps i v).getD j default =
      if i = j ∧ j < caps.length then ⟨(caps.getD i default).init, v⟩
      else caps.getD j default := getD_set caps i j _

theorem getD_default_len (caps : List Capture) (i : Nat)
    (h : caps.length ≤ i) : caps.getD i default = default :=
  List.getD_eq_default caps default h

theorem highestUnfinished_some (caps : List Capture) :
    ∀ level i, highestUnfinished caps level = some i →
      i < level ∧ (caps.getD i default).len = -1 := by
  intro level
  induction level with
  | zero =>
    intro i h
    cases h
  | succ l ih =>
    intro i h
    unfold highestUnfinished at h
    split at h
    · cases h
      exact ⟨Nat.lt_succ_self l, by assumption⟩
    · have := ih i h
      exact ⟨Nat.lt_succ_of_lt this.1, this.2⟩

theorem capwf_open (st : St) (s : Nat) (c : Capture)
    (hc : c.len = -2 ∨ (c.len = -1 ∧ c.init ≤ s)) (h : capwf st s) :
    capwf ⟨st.level + 1, st.captures.set st.level c⟩ s := by
  intro i hi
  dsimp only at hi ⊢
  rw [getD_set]
  split
  · rcases hc with hc | hc
    · exact Or.inr (Or.inl hc)
    · exact Or.inr (Or.inr hc)
  · rename_i hne
    rcases Nat.lt_or_ge i st.level with hlt | hge
    · exact h i hlt
    · have hieq : st.level = i := by omega
      have hlen : st.captures.length ≤ i := by
        rcases Nat.lt_or_ge i st.captures.length with hli | hli
        · exact absurd ⟨hieq, hli⟩ hne
        · exact hli
      rw [getD_default_len st.captures i hlen]
      exact Or.inr (Or.inr ⟨rfl, Nat.zero_le s⟩)

theorem capwf_close (st : St) (s i : Nat)
    (hlen : (st.captures.getD i default).len = -1)
    (hinit : (st.captures.getD i default).init ≤ s) (h : capwf st s) :
    capwf ⟨st.level, setLen st.captures i ((s : Int) - ((st.captures.getD i default).init : Int))⟩ s := by
  intro j hj
  dsimp only at hj ⊢
  rw [getD_setLen]
  split
  · left
    dsimp only
    omega
  · exact h j hj

/-- The failed-open undo of `start_capture`: starting from the
speculative state, a backtracked continuation composes with the undo to
a `Frame` of the original state. -/
theorem post_open_undo (env : Env) (st : St) (lo hi : Nat) (c : Capture)
    (st2 : St)
    (hfr : Frame ⟨st.level + 1, st.captures.set st.level c⟩ st2) :
    Post env st lo hi
      (Except.ok none, ⟨st2.level - 1, setLen st2.captures (st2.level - 1) (-1)⟩) := by
  obtain ⟨hf1, hf2, hf3, hf4⟩ := hfr
  dsimp only at hf1 hf2 hf3 hf4
  rw [List.length_set] at hf1
  refine ⟨?_, ?_, ?_, ?_, ?_⟩
  · dsimp only
    rw [length_setLen]
    exact hf1
  · dsimp only
    omega
  · intro h
    dsimp only
    omega
  · intro _
    refine ⟨?_, ?_, ?_, ?_⟩
    · dsimp only
      rw [length_setLen]
      exact hf1
    · dsimp only
      omega
    · intro j hj
      dsimp only
      rw [getD_setLen, if_neg (by omega)]
      have h3 := hf3 j (by omega)
      rw [getD_set, if_neg (by omega)] at h3
      exact h3
    · intro j hl
      dsimp only
      rw [getD_setLen]
      split
      · rfl
      · rename_i hne
        rcases Nat.lt_or_ge j st2.captures.length with hjlen | hjlen
        · have hjne : st.level ≠ j := by omega
          rcases Nat.lt_or_ge j (st.level + 1) with hlt | hge
          · have h3 := hf3 j hlt
            rw [getD_set, if_neg (by
              rintro ⟨hc1, -⟩
              exact hjne hc1)] at h3
            rw [h3]
            exact hl
          · apply hf4 j
            rw [getD_set, if_neg (by
              rintro ⟨hc1, -⟩
              exact hjne hc1)]
            exact hl
        · rw [getD_default_len st2.captures j hjlen]
          rfl
  · intro e he
    cases he

/-- The failed-close undo of `end_capture`: restores the original state
exactly on the undone slot and composes the inner frame elsewhere. -/
theorem post_close_undo (env : Env) (st : St) (lo hi i : Nat) (v : Int)
    (st2 : St) (hl : (st.captures.getD i default).len = -1)
    (hilt : i < st.level)
    (hfr : Frame ⟨st.level, setLen st.captures i v⟩ st2) :
    Post env st lo hi (Except.ok none, ⟨st2.level, setLen st2.captures i (-1)⟩) := by
  obtain ⟨hf1, hf2, hf3, hf4⟩ := hfr
  dsimp only at hf1 hf2 hf3 hf4
  rw [length_setLen] at hf1
  refine ⟨?_, ?_, ?_, ?_, ?_⟩
  · dsimp only
    rw [length_setLen]
    exact hf1
  · dsimp only
    omega
  · intro h
    dsimp only
    omega
  · intro _
    refine ⟨?_, ?_, ?_, ?_⟩
    · dsimp only
      rw [length_setLen]
      exact hf1
    · exact hf2
    · intro j hj
      dsimp only
      rw [getD_setLen]
      split
      · rename_i hcj
        obtain ⟨hij, hjlen⟩ := hcj
        cases hij
        have h3 := hf3 i (by omega)
        rw [getD_setLen, if_pos ⟨rfl, by omega⟩] at h3
        rw [h3]
        dsimp only
        cases hcapj : st.captures.getD i default with
        | mk a b =>
          rw [hcapj] at hl
          dsimp only at hl
          rw [hl]
      · rename_i hne
        have h3 := hf3 j (by omega)
        rw [getD_setLen, if_neg (fun hcon => hne ⟨hcon.1, by omega⟩)] at h3
        rw [h3]
    · intro j hlj
      dsimp only
      rw [getD_setLen]
      split
      · rfl
      · rename_i hne
        rcases Nat.lt_or_ge j st.level with hlt | hge
        · have h3 := hf3 j (by omega)
          rw [getD_setLen, if_neg (fun hcon => hne ⟨hcon.1, by omega⟩)] at h3
          rw [h3]
          exact hlj
        · apply hf4 j
          rw [getD_setLen, if_neg (fun hcon => hne ⟨hcon.1, by omega⟩)]
          exact hlj
  · intro e he
    cases he

theorem post_none_frame (env : Env) (st st2 : St) (lo hi : Nat)
    (hfr : Frame st st2) : Post env st lo hi (Except.ok none, st2) := by
  refine ⟨hfr.1, le_of_eq hfr.2.1.symm, fun h => hfr.2.1 ▸ h, fun _ => hfr, ?_⟩
  intro e he
  cases he

theorem countRun_spec (env : Env) (p ep : Nat) :
    ∀ n s, env.subject.length - s ≤ n →
      (∀ k, k < countRun env s p ep → singlematch env (s + k) p ep = true) ∧
      singlematch env (s + countRun env s p ep) p ep = false := by
  intro n
  induction n with
  | zero =>
    intro s hn
    have hsm : ¬singlematch env s p ep = true := by
      intro hc
      have := singlematch_lt env s p ep hc
      omega
    rw [countRun, dif_neg hsm]
    refine ⟨fun k hk => absurd hk (by omega), ?_⟩
    rcases hb : singlematch env (s + 0) p ep with _ | _
    · rfl
    · exact absurd (by simpa using hb) hsm
  | succ n ih =>
    intro s hn
    by_cases hsm : singlematch env s p ep = true
    · rw [countRun, dif_pos hsm]
      have hlt := singlematch_lt env s p ep hsm
      obtain ⟨ih1, ih2⟩ := ih (s + 1) (by omega)
      constructor
      · intro k hk
        cases k with
        | zero => exact hsm
        | succ k2 =>
          have harr : s + (k2 + 1) = (s + 1) + k2 := by omega
          rw [harr]
          exact ih1 k2 (by omega)
      · have harr : s + (countRun env (s + 1) p ep + 1) =
            (s + 1) + countRun env (s + 1) p ep := by omega
        rw [harr]
        exact ih2
    · rw [countRun, dif_neg hsm]
      refine ⟨fun k hk => absurd hk (by omega), ?_⟩
      rcases hb : singlematch env (s + 0) p ep with _ | _
      · rfl
      · exact absurd (by simpa using hb) hsm

theorem countRun_le (env : Env) (s p ep : Nat) (hs : s ≤ env.subject.length) :
    s + countRun env s p ep ≤ env.subject.length := by
  rcases Nat.eq_zero_or_pos (countRun env s p ep) with h0 | hpos
  · omega
  · have hspec := (countRun_spec env p ep env.subject.length s (by omega)).1
      (countRun env s p ep - 1) (by omega)
    have := singlematch_lt env _ p ep hspec
    omega

/-- Master invariant of the matcher core, by functional induction over
the whole mutually recursive block: capture-array length, level bounds,
the backtracking frame on failure, subject-position bounds on success,
and preservation of capture well-formedness. -/
theorem post_lex : ∀ (d : Nat) (env : Env) (st : St) (s p : Nat),
    Post env st s s (lexMatch d env st s p) := by
  refine lexMatch.induct
    (fun d env st s p => Post env st s s (lexMatch d env st s p))
    (fun d env st s p => Post env st s s (matchBody d env st s p))
    (fun d env st s p => Post env st s s (dflt d env st s p))
    (fun d env st s p ep => Post env st s s (minExpand d env st s p ep))
    (fun d env st s p ep => Post env st s s (maxExpand d env st s p ep))
    (fun d env st s ep i => Post env st s (s + i) (maxTry d env st s ep i))
    (fun d env st s p => Post env st s s (endCapture d env st s p))
    (fun d env st s p => Post env st s s (startCapture d env st s p))
    ?_ ?_ ?_ ?_ ?_ ?_ ?_ ?_ ?_ ?_ ?_ ?_ ?_ ?_ ?_ ?_ ?_ ?_ ?_ ?_
    ?_ ?_ ?_ ?_ ?_ ?_ ?_ ?_ ?_ ?_ ?_ ?_ ?_ ?_ ?_ ?_ ?_ ?_ ?_ ?_
  -- lexMatch, budget exhausted
  · intro env st s p
    rw [lexMatch, if_pos rfl]
    exact post_err_self env st s s _
  -- lexMatch, dispatch
  · intro d env st s p hd ih
    rw [lexMatch, if_neg hd]
    exact ih
  -- matchBody, pattern end
  · intro d env st s
    rw [matchBody, if_pos rfl]
    exact post_some_self env st s
  -- matchBody, open capture
  · intro d env st s p h1 h40 ih
    rw [matchBody, if_neg h1, if_pos h40]
    exact ih
  -- matchBody, close capture
  · intro d env st s p h1 h40 h41 ih
    rw [matchBody, if_neg h1, if_neg h40, if_pos h41]
    exact ih
  -- matchBody, final dollar at subject end
  · intro d env st p h1 h40 h41 h36
    rw [matchBody, if_neg h1, if_neg h40, if_neg h41, if_pos h36, if_pos rfl]
    exact post_some_self env st env.subject.length
  -- matchBody, final dollar not at subject end
  · intro d env st s p h1 h40 h41 h36 hs
    rw [matchBody, if_neg h1, if_neg h40, if_neg h41, if_pos h36, if_neg hs]
    exact post_none_self env st s s
  -- matchBody, %b raising
  · intro d env st s p h1 h40 h41 h36 hb e heq
    rw [matchBody, if_neg h1, if_neg h40, if_neg h41, if_neg h36, dif_pos hb]
    split
    · exact post_err_self env st s s _
    · exact post_none_self env st s s
    · rename_i r2 heq2
      rw [heq] at heq2
      simp at heq2
  -- matchBody, %b failing
  · intro d env st s p h1 h40 h41 h36 hb heq
    rw [matchBody, if_neg h1, if_neg h40, if_neg h41, if_neg h36, dif_pos hb]
    split
    · rename_i e2 heq2
      rw [heq] at heq2
      simp at heq2
    · exact post_none_self env st s s
    · rename_i r2 heq2
      rw [heq] at heq2
      simp at heq2
  -- matchBody, %b succeeding
  · intro d env st s p h1 h40 h41 h36 hb r heq ih
    rw [matchBody, if_neg h1, if_neg h40, if_neg h41, if_neg h36, dif_pos hb]
    split
    · rename_i e2 heq2
      rw [heq] at heq2
      simp at heq2
    · rename_i heq2
      rw [heq] at heq2
      simp at heq2
    · rename_i r2 heq2
      rw [heq] at heq2
      simp only [Except.ok.injEq, Option.some.injEq] at heq2
      subst heq2
      have hbnd := matchbalance_bounds env s (p + 2) r heq
      exact post_goto env st s s r r _ ih (by omega) (fun _ => by omega)
  -- matchBody, frontier without bracket
  · intro d env st s p h1 h40 h41 h36 hb hf h91
    rw [matchBody, if_neg h1, if_neg h40, if_neg h41, if_neg h36, dif_neg hb,
      dif_pos hf, dif_pos h91]
    exact post_err_self env st s s _
  -- matchBody, frontier classend raising
  · intro d env st s p h1 h40 h41 h36 hb hf h91 e heq
    rw [matchBody, if_neg h1, if_neg h40, if_neg h41, if_neg h36, dif_neg hb,
      dif_pos hf, dif_neg h91]
    split
    · exact post_err_self env st s s _
    · rename_i ep2 heq2
      rw [heq] at heq2
      simp at heq2
  -- matchBody, frontier passing
  · intro d env st s p h1 h40 h41 h36 hb hf h91 ep heq hbr ih
    rw [matchBody, if_neg h1, if_neg h40, if_neg h41, if_neg h36, dif_neg hb,
      dif_pos hf, dif_neg h91]
    split
    · rename_i e2 heq2
      rw [heq] at heq2
      simp at heq2
    · rename_i ep2 heq2
      rw [heq] at heq2
      simp only [Except.ok.injEq] at heq2
      subst heq2
      rw [if_pos (show _ by simp only [dite_eq_ite] at hbr; exact hbr)]
      exact ih
  -- matchBody, frontier failing
  · intro d env st s p h1 h40 h41 h36 hb hf h91 ep heq hbr
    rw [matchBody, if_neg h1, if_neg h40, if_neg h41, if_neg h36, dif_neg hb,
      dif_pos hf, dif_neg h91]
    split
    · rename_i e2 heq2
      rw [heq] at heq2
      simp at heq2
    · rename_i ep2 heq2
      rw [heq] at heq2
      simp only [Except.ok.injEq] at heq2
      subst heq2
      rw [if_neg (show _ by simp only [dite_eq_ite] at hbr; exact hbr)]
      exact post_none_self env st s s
  -- matchBody, backreference raising
  · intro d env st s p h1 h40 h41 h36 hb hf hg e heq
    rw [matchBody, if_neg h1, if_neg h40, if_neg h41, if_neg h36, dif_neg hb,
      dif_neg hf, dif_pos hg]
    split
    · exact post_err_self env st s s _
    · rename_i r2 heq2
      rw [heq] at heq2
      simp at heq2
    · rename_i heq2
      rw [heq] at heq2
      simp at heq2
  -- matchBody, backreference succeeding
  · intro d env st s p h1 h40 h41 h36 hb hf hg r heq ih
    rw [matchBody, if_neg h1, if_neg h40, if_neg h41, if_neg h36, dif_neg hb,
      dif_neg hf, dif_pos hg]
    split
    · rename_i e2 heq2
      rw [heq] at heq2
      simp at heq2
    · rename_i r2 heq2
      rw [heq] at heq2
      simp only [Except.ok.injEq, Option.some.injEq] at heq2
      subst heq2
      have hbnd := match_capture_bounds env st s (pread env (p + 1)) r heq
      exact post_goto env st s s r r _ ih hbnd.1 hbnd.2
    · rename_i heq2
      rw [heq] at heq2
      simp at heq2
  -- matchBody, backreference text mismatch falls through to dflt
  · intro d env st s p h1 h40 h41 h36 hb hf hg heq ih
    rw [matchBody, if_neg h1, if_neg h40, if_neg h41, if_neg h36, dif_neg hb,
      dif_neg hf, dif_pos hg]
    split
    · rename_i e2 heq2
      rw [heq] at heq2
      simp at heq2
    · rename_i r2 heq2
      rw [heq] at heq2
      simp at heq2
    · exact ih
  -- matchBody, default item
  · intro d env st s p h1 h40 h41 h36 hb hf hg ih
    rw [matchBody, if_neg h1, if_neg h40, if_neg h41, if_neg h36, dif_neg hb,
      dif_neg hf, dif_neg hg]
    exact ih
  -- dflt, classend raising
  · intro d env st s p e heq
    rw [dflt]
    split
    · exact post_err_self env st s s _
    · rename_i ep2 heq2
      rw [heq] at heq2
      simp at heq2
  -- dflt, optional suffix with backtracked first branch
  · intro d env st s p ep hce hsm h63 st2 heq ih1 ih2
    rw [dflt]
    split
    · rename_i e2 heq2
      rw [hce] at heq2
      simp at heq2
    · rename_i ep2 heq2
      rw [hce] at heq2
      simp only [Except.ok.injEq] at heq2
      subst heq2
      rw [dif_pos hsm, if_pos h63, heq]
      rw [heq] at ih1
      have hfr := ih1.2.2.2.1 rfl
      have hlt := singlematch_lt env s p ep hsm
      exact post_seq env st st2 s s s _ hfr ih2 (fun h => h)
  -- dflt, optional suffix with successful or raising first branch
  · intro d env st s p ep hce hsm h63 hcontra ih1
    rw [dflt]
    split
    · rename_i e2 heq2
      rw [hce] at heq2
      simp at heq2
    · rename_i ep2 heq2
      rw [hce] at heq2
      simp only [Except.ok.injEq] at heq2
      subst heq2
      rw [dif_pos hsm, if_pos h63]
      have hlt := singlematch_lt env s p ep hsm
      rcases hres : lexMatch d env st (s + 1) (ep + 1) with ⟨r1, stx⟩
      rw [hres] at ih1
      match r1, ih1 with
      | Except.ok none, ih1 => exact absurd hres (fun hc => hcontra stx hc)
      | Except.ok (some e), ih1 =>
        exact post_goto env st s s (s + 1) (s + 1) _ ih1 (by omega)
          (fun h => by omega)
      | Except.error e, ih1 =>
        exact post_goto env st s s (s + 1) (s + 1) _ ih1 (by omega)
          (fun h => by omega)
  -- dflt, plus suffix
  · intro d env st s p ep hce hsm h63 h43 ih
    rw [dflt]
    split
    · rename_i e2 heq2
      rw [hce] at heq2
      simp at heq2
    · rename_i ep2 heq2
      rw [hce] at heq2
      simp only [Except.ok.injEq] at heq2
      subst heq2
      rw [dif_pos hsm, if_neg h63, if_pos h43]
      have hlt := singlematch_lt env s p ep hsm
      exact post_goto env st s s (s + 1) (s + 1) _ ih (by omega) (fun h => by omega)
  -- dflt, star suffix
  · intro d env st s p ep hce hsm h63 h43 h42 ih
    rw [dflt]
    split
    · rename_i e2 heq2
      rw [hce] at heq2
      simp at heq2
    · rename_i ep2 heq2
      rw [hce] at heq2
      simp only [Except.ok.injEq] at heq2
      subst heq2
      rw [dif_pos hsm, if_neg h63, if_neg h43, if_pos h42]
      exact ih
  -- dflt, minus suffix
  · intro d env st s p ep hce hsm h63 h43 h42 h45 ih
    rw [dflt]
    split
    · rename_i e2 heq2
      rw [hce] at heq2
      simp at heq2
    · rename_i ep2 heq2
      rw [hce] at heq2
      simp only [Except.ok.injEq] at heq2
      subst heq2
      rw [dif_pos hsm, if_neg h63, if_neg h43, if_neg h42, if_pos h45]
      exact ih
  -- dflt, bare item
  · intro d env st s p ep hce hsm h63 h43 h42 h45 ih
    rw [dflt]
    split
    · rename_i e2 heq2
      rw [hce] at heq2
      simp at heq2
    · rename_i ep2 heq2
      rw [hce] at heq2
      simp only [Except.ok.injEq] at heq2
      subst heq2
      rw [dif_pos hsm, if_neg h63, if_neg h43, if_neg h42, if_neg h45]
      have hlt := singlematch_lt env s p ep hsm
      exact post_goto env st s s (s + 1) (s + 1) _ ih (by omega) (fun h => by omega)
  -- dflt, unmatched item with empty-accepting suffix
  · intro d env st s p ep hce hsm hsfx ih
    rw [dflt]
    split
    · rename_i e2 heq2
      rw [hce] at heq2
      simp at heq2
    · rename_i ep2 heq2
      rw [hce] at heq2
      simp only [Except.ok.injEq] at heq2
      subst heq2
      rw [dif_neg hsm, dif_pos hsfx]
      exact ih
  -- dflt, unmatched item without suffix
  · intro d env st s p ep hce hsm hsfx
    rw [dflt]
    split
    · rename_i e2 heq2
      rw [hce] at heq2
      simp at heq2
    · rename_i ep2 heq2
      rw [hce] at heq2
      simp only [Except.ok.injEq] at heq2
      subst heq2
      rw [dif_neg hsm, dif_neg hsfx]
      exact post_none_self env st s s
  -- minExpand, backtracked then consuming
  · intro d env st s p ep st2 heq hsm ih1 ih2
    rw [minExpand, heq]
    rw [heq] at ih1
    dsimp only
    rw [dif_pos hsm]
    have hfr := ih1.2.2.2.1 rfl
    have hlt := singlematch_lt env s p ep hsm
    have h2 := post_goto env st2 s s (s + 1) (s + 1) _ ih2 (by omega)
      (fun h => by omega)
    exact post_seq env st st2 s s s _ hfr h2 (fun h => h)
  -- minExpand, backtracked and item exhausted
  · intro d env st s p ep st2 heq hsm ih1
    rw [minExpand, heq]
    dsimp only
    rw [dif_neg hsm]
    rw [heq] at ih1
    exact post_none_frame env st st2 s s (ih1.2.2.2.1 rfl)
  -- minExpand, immediate success or raise
  · intro d env st s p ep hcontra ih1
    rw [minExpand]
    rcases hres : lexMatch d env st s (ep + 1) with ⟨r1, stx⟩
    rw [hres] at ih1
    match r1, ih1 with
    | Except.ok none, ih1 => exact absurd hres (fun hc => hcontra stx hc)
    | Except.ok (some e), ih1 => exact ih1
    | Except.error e, ih1 => exact ih1
  -- maxExpand
  · intro d env st s p ep ih
    rw [maxExpand]
    refine post_goto env st s s s (s + countRun env s p ep) _ ih (by omega) ?_
    intro h
    exact countRun_le env s p ep h
  -- maxTry, zero expansion failing
  · intro d env st s ep st2 heq ih1
    rw [maxTry, heq]
    rw [heq] at ih1
    dsimp only
    exact post_none_frame env st st2 s (s + 0) (ih1.2.2.2.1 rfl)
  -- maxTry, failing attempt then countdown
  · intro d env st s ep i st2 heq hne0 ih1 ih2
    rw [maxTry, heq]
    dsimp only
    rw [if_neg hne0]
    rw [heq] at ih1
    have hfr := ih1.2.2.2.1 rfl
    exact post_seq env st st2 s (s + i) (s + (i - 1)) _ hfr ih2 (fun h => by omega)
  -- maxTry, successful or raising attempt
  · intro d env st s ep i hcontra ih1
    rw [maxTry]
    rcases hres : lexMatch d env st (s + i) (ep + 1) with ⟨r1, stx⟩
    rw [hres] at ih1
    match r1, ih1 with
    | Except.ok none, ih1 => exact absurd hres (fun hc => hcontra stx hc)
    | Except.ok (some e), ih1 =>
      exact post_goto env st s (s + i) (s + i) (s + i) _ ih1 (by omega) (fun h => h)
    | Except.error e, ih1 =>
      exact post_goto env st s (s + i) (s + i) (s + i) _ ih1 (by omega) (fun h => h)
  -- endCapture, no unfinished slot
  · intro d env st s p hnone
    rw [endCapture, hnone]
    exact post_err_self env st s s _

  -- endCapture, backtracked
  · intro d env st s p i hsome st2 heq ih1
    rw [endCapture, hsome]
    dsimp only
    rw [heq]
    dsimp only
    rw [heq] at ih1
    obtain ⟨hilt, hl⟩ := highestUnfinished_some st.captures st.level i hsome
    exact post_close_undo env st s s i _ st2 hl hilt (ih1.2.2.2.1 rfl)
  -- endCapture, passing through
  · intro d env st s p i hsome hcontra ih1
    rw [endCapture, hsome]
    dsimp only
    obtain ⟨hilt, hl⟩ := highestUnfinished_some st.captures st.level i hsome
    rcases hres : lexMatch d env
        ⟨st.level, setLen st.captures i
          ((s : Int) - ((st.captures.getD i default).init : Int))⟩ s p with ⟨r1, stx⟩
    rw [hres] at ih1
    have hpass : ∀ r1 stx, (r1 = Except.ok none → False) →
        Post env ⟨st.level, setLen st.captures i
          ((s : Int) - ((st.captures.getD i default).init : Int))⟩ s s (r1, stx) →
        Post env st s s (r1, stx) := by
      intro r1 stx hnn ih
      refine ⟨?_, ?_, ?_, ?_, ?_⟩
      · have := ih.1
        dsimp only at this
        rw [length_setLen] at this
        exact this
      · exact ih.2.1
      · exact ih.2.2.1
      · intro hn
        exact absurd hn hnn
      · intro e he hhi
        obtain ⟨ha, hb2, hc⟩ := ih.2.2.2.2 e he hhi
        refine ⟨ha, hb2, ?_⟩
        intro hw
        apply hc
        rcases hw i hilt with hx | hx | hx
        · exact absurd hl (by omega)
        · exact absurd hl (by omega)
        · exact capwf_close st s i hl hx.2 hw
    match r1, ih1 with
    | Except.ok none, ih1 => exact absurd hres (fun hc => hcontra stx hc)
    | Except.ok (some e), ih1 =>
      exact hpass _ stx (fun hc => by cases hc) ih1
    | Except.error e, ih1 =>
      exact hpass _ stx (fun hc => by cases hc) ih1
  -- startCapture, too many captures
  · intro d env st s p hover
    rw [startCapture, if_pos hover]
    exact post_err_self env st s s _
  -- startCapture, backtracked
  · intro d env st s p hnover st2 heq ih1
    simp only [dite_eq_ite] at heq ih1
    rw [startCapture, if_neg hnover]
    rw [heq]
    dsimp only
    rw [heq] at ih1
    exact post_open_undo env st s s _ st2 (ih1.2.2.2.1 rfl)
  -- startCapture, passing through
  · intro d env st s p hnover hcontra ih1
    simp only [dite_eq_ite] at hcontra ih1
    rw [startCapture, if_neg hnover]
    rcases hres : lexMatch d env
        ⟨st.level + 1, st.captures.set st.level
          ⟨s, if pread env p = 41 then -2 else -1⟩⟩ s
        (if pread env p = 41 then p + 1 else p) with ⟨r1, stx⟩
    rw [hres] at ih1
    have hpass : ∀ r1 stx, (r1 = Except.ok none → False) →
        Post env ⟨st.level + 1, st.captures.set st.level
          ⟨s, if pread env p = 41 then -2 else -1⟩⟩ s s (r1, stx) →
        Post env st s s (r1, stx) := by
      intro r1 stx hnn ih
      refine ⟨?_, ?_, ?_, ?_, ?_⟩
      · have h := ih.1
        dsimp only at h
        rw [List.length_set] at h
        exact h
      · have h := ih.2.1
        dsimp only at h ⊢
        omega
      · intro hlev
        have h := ih.2.2.1 (by dsimp only; omega)
        dsimp only at h ⊢
        omega
      · intro hn
        exact absurd hn hnn
      · intro e he hhi
        obtain ⟨ha, hb2, hc⟩ := ih.2.2.2.2 e he hhi
        refine ⟨ha, hb2, ?_⟩
        intro hw
        apply hc
        apply capwf_open st s _ ?_ hw
        split
        · exact Or.inl rfl
        · exact Or.inr ⟨rfl, le_refl s⟩
    match r1, ih1 with
    | Except.ok none, ih1 => exact absurd hres (fun hc => hcontra stx hc)
    | Except.ok (some e), ih1 =>
      exact hpass _ stx (fun hc => by cases hc) ih1
    | Except.error e, ih1 =>
      exact hpass _ stx (fun hc => by cases hc) ih1

/-! ### The substitution drivers

`pg::lex::gsub` comes in a template variant (the replacement is a
string with `%`-escapes) and a callback variant.  Both share the
cursor/emit loop; it needs `post_lex` for its termination argument
(the match end never lies before the match start). -/

/-- A read of a replacement-template unit; like the pattern, the
template is traversed by `std::find` within its bounds, and the one
unit read past a terminal `%` is modelled as NUL. -/
def rread (repl : List Nat) (i : Nat) : Nat := repl.getD i 0

/-- `result.append(first, last)` over the code-unit list: the slice
`[a, b)`. -/
def seg (xs : List Nat) (a b : Nat) : List Nat := (xs.take b).drop a

/-- `std::find(r_begin, r.end, percent)` (src/src/lex.h lines 1030-1032):
the index of the first `%` at or after `i`, or the template's length. -/
def findPct (repl : List Nat) (i : Nat) : Nat :=
  if repl.length ≤ i then repl.length
  else if rread repl i = 37 then i
  else findPct repl (i + 1)
termination_by repl.length - i
decreasing_by omega

theorem findPct_ne (repl : List Nat) : ∀ n i, repl.length - i ≤ n →
    findPct repl i ≠ repl.length → i ≤ findPct repl i ∧ findPct repl i < repl.length := by
  intro n
  induction n with
  | zero =>
    intro i hfuel hne
    rw [findPct, if_pos (by omega)] at hne
    exact absurd rfl hne
  | succ n ih =>
    intro i hfuel hne
    by_cases hlen : repl.length ≤ i
    · rw [findPct, if_pos hlen] at hne
      exact absurd rfl hne
    · rw [findPct, if_neg hlen] at hne ⊢
      by_cases hc : rread repl i = 37
      · rw [if_pos hc] at hne ⊢
        exact ⟨le_refl i, by omega⟩
      · rw [if_neg hc] at hne ⊢
        have := ih (i + 1) (by omega) hne
        exact ⟨by omega, this.2⟩

/-- `detail::append_number` (src/src/lex.h lines 693-702): the decimal
digits of a non-negative number. -/
def appendNumber (n : Nat) : List Nat :=
  (if 9 < n then appendNumber (n / 10) else []) ++ [48 + n % 10]
termination_by n
decreasing_by
  have := Nat.div_lt_self (show 0 < n by omega) (show 1 < 10 by omega)
  omega

/-- The `%`-escape expansion loop of the template `gsub` (src/src/lex.h
lines 1029-1076), for the match `[s, e)` just found: `%%` emits `%`,
`%0` emits the whole match, `%n` (n = 1..9) first installs the synthetic
whole-match capture if `level == 0`, then renders slot n−1 — a position
capture as the decimal of `1 + init`, a finished one as its recorded
slice (the slot length converted through `size_t` as in
`match_capture`) — raising `capture_invalid_index` when n−1 is not below
`level`; any other unit after `%` raises
`percent_invalid_use_in_replacement`.  Returns the expanded text and the
state (the synthetic install persists into later escapes, as the C++
mutates `ms`). -/
def substRepl (env : Env) (repl : List Nat) (s e : Nat) (st : St) (rb : Nat) :
    Except ErrT (List Nat × St) :=
  if hf : findPct repl rb = repl.length then
    Except.ok (seg repl rb repl.length, st)
  else
    let f := findPct repl rb
    let pre := seg repl rb f
    let c := rread repl (f + 1)
    if c = 37 then
      match substRepl env repl s e st (f + 2) with
      | Except.error er => Except.error er
      | Except.ok (out, st2) => Except.ok (pre ++ [37] ++ out, st2)
    else if c = 48 then
      match substRepl env repl s e st (f + 2) with
      | Except.error er => Except.error er
      | Except.ok (out, st2) => Except.ok (pre ++ seg env.subject s e ++ out, st2)
    else if 48 ≤ c ∧ c ≤ 57 then
      let st1 := installWholeMatch st s e
      if st1.level ≤ c - 49 then Except.error ErrT.capture_invalid_index
      else
        let cap := st1.captures.getD (c - 49) default
        let piece := if cap.len = -2 then appendNumber (1 + cap.init)
          else seg env.subject cap.init (cap.init + capLenZ st1 c)
        match substRepl env repl s e st1 (f + 2) with
        | Except.error er => Except.error er
        | Except.ok (out, st2) => Except.ok (pre ++ piece ++ out, st2)
    else Except.error ErrT.percent_invalid_use_in_replacement
termination_by repl.length + 2 - rb
decreasing_by
  all_goals
    have := findPct_ne repl repl.length rb (by omega) hf
    omega

/-- The starting point of a verbatim copy out of the subject:
`last_match ? last_match : c.s.begin` (src/src/lex.h lines 1025, 1084). -/
def lastStart : Option Nat → Nat
  | none => 0
  | some l => l

/-- The cursor/emit loop of the template `gsub` (src/src/lex.h lines
1008-1082): while the cursor is within the subject and the remaining
count is nonzero — with an anchored pattern zeroing the count at the top
of each iteration — run the core at the cursor; on failure or on a match
ending where the previous one ended, advance the cursor by one;
otherwise emit the verbatim stretch since the previous match's end,
validate the captures, expand the template, step the cursor to the
match's end and decrement the count.  `reprepstate` runs after every
iteration.  After the loop the tail from the previous match's end is
emitted. -/
def gsubLoop (env : Env) (anchored : Bool) (repl : List Nat) (st : St)
    (s : Nat) (count : Int) (last : Option Nat) (acc : List Nat) :
    Except ErrT (List Nat) :=
  if hguard : s ≤ env.subject.length ∧ count ≠ 0 then
    let count1 : Int := if anchored then 0 else count
    match hm : lexMatch MAXCCALLS env st s 0 with
    | (Except.error er, _) => Except.error er
    | (Except.ok none, st2) =>
      gsubLoop env anchored repl (reprep st2) (s + 1) count1 last acc
    | (Except.ok (some e), st2) =>
      if hstall : some e = last then
        gsubLoop env anchored repl (reprep st2) (s + 1) count1 last acc
      else if hasUnfinished st2.captures st2.level then
        Except.error ErrT.capture_not_finished
      else
        match substRepl env repl s e st2 0 with
        | Except.error er => Except.error er
        | Except.ok (out, st3) =>
          gsubLoop env anchored repl (reprep st3) e (count1 - 1) (some e)
            (acc ++ seg env.subject (lastStart last) s ++ out)
  else Except.ok (acc ++ seg env.subject (lastStart last) env.subject.length)
termination_by
  2 * (env.subject.length + 1 - s) + (if last = some s then 0 else 1)
decreasing_by
  · split <;> split <;> omega
  · split <;> split <;> omega
  · have hpost := post_lex MAXCCALLS env st s 0
    rw [hm] at hpost
    have hbnd := hpost.2.2.2.2 e rfl hguard.1
    have hse : s ≤ e := hbnd.1
    split
    · split
      · rename_i hL
        have hne : e ≠ s := fun hes => hstall (by rw [hL, hes])
        omega
      · omega
    · rename_i hne
      simp at hne

/-- `pg::lex::gsub`, template variant (src/src/lex.h lines 990-1087):
the match state is fresh (`reprepstate` runs in its constructor), the
cursor starts at the subject's begin, `last_match` is null. -/
def gsubT (subject pattern repl : List Nat) (oob : Nat) (count : Int) :
    Except ErrT (List Nat) :=
  gsubLoop ⟨subject, (stripAnchor pattern).1, oob⟩ (stripAnchor pattern).2
    repl (reprep initSt) 0 count none []

/-- The cursor/emit loop of the callback `gsub` (src/src/lex.h lines
1113-1148): as the template loop, but the replacement is produced by a
function applied to the match result, whose position pair is the match
span and which carries the synthetic whole-match capture when
`level == 0`. -/
def gsubFnLoop (env : Env) (anchored : Bool) (F : MatchResult → List Nat)
    (st : St) (s : Nat) (count : Int) (last : Option Nat) (acc : List Nat) :
    Except ErrT (List Nat) :=
  if hguard : s ≤ env.subject.length ∧ count ≠ 0 then
    let count1 : Int := if anchored then 0 else count
    match hm : lexMatch MAXCCALLS env st s 0 with
    | (Except.error er, _) => Except.error er
    | (Except.ok none, st2) =>
      gsubFnLoop env anchored F (reprep st2) (s + 1) count1 last acc
    | (Except.ok (some e), st2) =>
      if hstall : some e = last then
        gsubFnLoop env anchored F (reprep st2) (s + 1) count1 last acc
      else if hasUnfinished st2.captures st2.level then
        Except.error ErrT.capture_not_finished
      else
        let st3 := installWholeMatch st2 s e
        gsubFnLoop env anchored F (reprep st3) e (count1 - 1) (some e)
          (acc ++ seg env.subject (lastStart last) s ++
            F ⟨((s : Int), (e : Int)), st3.level, st3.captures⟩)
  else Except.ok (acc ++ seg env.subject (lastStart last) env.subject.length)
termination_by
  2 * (env.subject.length + 1 - s) + (if last = some s then 0 else 1)
decreasing_by
  · split <;> split <;> omega
  · split <;> split <;> omega
  · have hpost := post_lex MAXCCALLS env st s 0
    rw [hm] at hpost
    have hbnd := hpost.2.2.2.2 e rfl hguard.1
    have hse : s ≤ e := hbnd.1
    split
    · split
      · rename_i hL
        have hne : e ≠ s := fun hes => hstall (by rw [hL, hes])
        omega
      · omega
    · rename_i hne
      simp at hne

/-- `pg::lex::gsub`, callback variant (src/src/lex.h lines 1099-1153). -/
def gsubF (subject pattern : List Nat) (F : MatchResult → List Nat)
    (oob : Nat) (count : Int) : Except ErrT (List Nat) :=
  gsubFnLoop ⟨subject, (stripAnchor pattern).1, oob⟩ (stripAnchor pattern).2
    F (reprep initSt) 0 count none []

/-! ### Congruence of the core in the invisible part of the state

The core reads only `level` and the slots below it; two states agreeing
there produce the same results and stay in agreement.  This is what
makes the backtracking loops of `max_expand`/`min_expand` behave as if
each attempt started from the caller's state. -/

/-- Agreement on everything the matcher core can observe. -/
def eqv (a b : St) : Prop :=
  a.level = b.level ∧ a.captures.length = b.captures.length ∧
  ∀ i, i < a.level → a.captures.getD i default = b.captures.getD i default

theorem eqv_refl (a : St) : eqv a a := ⟨rfl, rfl, fun _ _ => rfl⟩

theorem match_capture_eqv (env : Env) (st st' : St) (s c : Nat)
    (h : eqv st st') : match_capture env st s c = match_capture env st' s c := by
  obtain ⟨hl, hn, hc⟩ := h
  unfold match_capture capLenZ
  rcases Nat.lt_or_ge c 49 with h49 | h49
  · rw [if_pos (Or.inl h49), if_pos (Or.inl h49)]
  · rcases Nat.lt_or_ge (c - 49) st.level with hlev | hlev
    · rw [hc (c - 49) hlev, hl]
    · rw [if_pos (Or.inr (Or.inl hlev)), if_pos (Or.inr (Or.inl (hl ▸ hlev)))]

theorem highestUnfinished_eqv (st st' : St) (h : eqv st st') :
    ∀ n, n ≤ st.level →
      highestUnfinished st.captures n = highestUnfinished st'.captures n := by
  intro n
  induction n with
  | zero => intro _; rfl
  | succ m ih =>
    intro hle
    unfold highestUnfinished
    rw [h.2.2 m (by omega)]
    split
    · rfl
    · exact ih (by omega)

theorem eqv_open (st st' : St) (h : eqv st st') (c : Capture) :
    eqv ⟨st.level + 1, st.captures.set st.level c⟩
      ⟨st'.level + 1, st'.captures.set st'.level c⟩ := by
  obtain ⟨hl, hn, hc⟩ := h
  refine ⟨by dsimp only; omega, by dsimp only; rw [List.length_set, List.length_set]; exact hn, ?_⟩
  intro i hi
  dsimp only at hi ⊢
  rw [getD_set, getD_set, ← hl, ← hn]
  split
  · rfl
  · rename_i hcond
    rcases Nat.lt_or_ge i st.level with hx | hx
    · exact hc i hx
    · have hieq : st.level = i := by omega
      have hy : st.captures.length ≤ i := by
        rcases Nat.lt_or_ge i st.captures.length with hz | hz
        · exact absurd ⟨hieq, hz⟩ hcond
        · exact hz
      rw [getD_default_len st.captures i hy, getD_default_len st'.captures i (by omega)]

theorem eqv_open_getD (st st' : St) (h : eqv st st') (c : Capture) (i : Nat)
    (hi : i < st.level + 1) :
    (st.captures.set st.level c).getD i default =
      (st'.captures.set st'.level c).getD i default := by
  have := (eqv_open st st' h c).2.2 i (by dsimp only; omega)
  dsimp only at this
  exact this

theorem eqv_setLen (st st' : St) (h : eqv st st') (i : Nat) (v : Int)
    (hi : i < st.level) :
    eqv ⟨st.level, setLen st.captures i v⟩
      ⟨st'.level, setLen st'.captures i v⟩ := by
  obtain ⟨hl, hn, hc⟩ := h
  refine ⟨by dsimp only; omega,
    by dsimp only; rw [length_setLen, length_setLen]; exact hn, ?_⟩
  intro j hj
  dsimp only at hj ⊢
  rw [getD_setLen, getD_setLen, ← hn]
  split
  · rw [hc i hi]
  · exact hc j hj

theorem eqv_undo (a b : St) (h : eqv a b) :
    eqv ⟨a.level - 1, setLen a.captures (a.level - 1) (-1)⟩
      ⟨b.level - 1, setLen b.captures (b.level - 1) (-1)⟩ := by
  obtain ⟨hl, hn, hc⟩ := h
  refine ⟨by dsimp only; omega,
    by dsimp only; rw [length_setLen, length_setLen]; exact hn, ?_⟩
  intro j hj
  dsimp only at hj ⊢
  rw [getD_setLen, getD_setLen, ← hl, ← hn]
  split
  · rename_i hcond
    exact absurd hcond (by omega)
  · exact hc j (by omega)

theorem eqv_undo_close (a b : St) (h : eqv a b) (i : Nat) (hi : i < a.level) :
    eqv ⟨a.level, setLen a.captures i (-1)⟩
      ⟨b.level, setLen b.captures i (-1)⟩ := eqv_setLen a b h i (-1) hi

/-! ### Branch equations of the dispatch -/

theorem mB_end (d : Nat) (env : Env) (st : St) (s p : Nat)
    (h1 : p = env.pattern.length) :
    matchBody d env st s p = (Except.ok (some s), st) := by
  rw [matchBody, if_pos h1]

theorem mB_open (d : Nat) (env : Env) (st : St) (s p : Nat)
    (h1 : ¬p = env.pattern.length) (h40 : pread env p = 40) :
    matchBody d env st s p = startCapture d env st s (p + 1) := by
  rw [matchBody, if_neg h1, if_pos h40]

theorem mB_close (d : Nat) (env : Env) (st : St) (s p : Nat)
    (h1 : ¬p = env.pattern.length) (h40 : ¬pread env p = 40)
    (h41 : pread env p = 41) :
    matchBody d env st s p = endCapture d env st s (p + 1) := by
  rw [matchBody, if_neg h1, if_neg h40, if_pos h41]

theorem mB_dollar (d : Nat) (env : Env) (st : St) (s p : Nat)
    (h1 : ¬p = env.pattern.length) (h40 : ¬pread env p = 40)
    (h41 : ¬pread env p = 41)
    (h36 : pread env p = 36 ∧ p + 1 = env.pattern.length) :
    matchBody d env st s p =
      (if s = env.subject.length then (Except.ok (some s), st)
       else (Except.ok none, st)) := by
  rw [matchBody, if_neg h1, if_neg h40, if_neg h41, if_pos h36]

theorem mB_bal_err (d : Nat) (env : Env) (st : St) (s p : Nat) (e : ErrT)
    (h1 : ¬p = env.pattern.length) (h40 : ¬pread env p = 40)
    (h41 : ¬pread env p = 41)
    (h36 : ¬(pread env p = 36 ∧ p + 1 = env.pattern.length))
    (hb : pread env p = 37 ∧ pread env (p + 1) = 98)
    (heq : matchbalance env s (p + 2) = Except.error e) :
    matchBody d env st s p = (Except.error e, st) := by
  rw [matchBody, if_neg h1, if_neg h40, if_neg h41, if_neg h36, dif_pos hb]
  split
  · rename_i e2 heq2
    rw [heq] at heq2
    simp only [Except.error.injEq] at heq2
    rw [heq2]
  · rename_i heq2
    rw [heq] at heq2
    simp at heq2
  · rename_i r2 heq2
    rw [heq] at heq2
    simp at heq2

theorem mB_bal_none (d : Nat) (env : Env) (st : St) (s p : Nat)
    (h1 : ¬p = env.pattern.length) (h40 : ¬pread env p = 40)
    (h41 : ¬pread env p = 41)
    (h36 : ¬(pread env p = 36 ∧ p + 1 = env.pattern.length))
    (hb : pread env p = 37 ∧ pread env (p + 1) = 98)
    (heq : matchbalance env s (p + 2) = Except.ok none) :
    matchBody d env st s p = (Except.ok none, st) := by
  rw [matchBody, if_neg h1, if_neg h40, if_neg h41, if_neg h36, dif_pos hb]
  split
  · rename_i e2 heq2
    rw [heq] at heq2
    simp at heq2
  · rfl
  · rename_i r2 heq2
    rw [heq] at heq2
    simp at heq2

theorem mB_bal_some (d : Nat) (env : Env) (st : St) (s p r : Nat)
    (h1 : ¬p = env.pattern.length) (h40 : ¬pread env p = 40)
    (h41 : ¬pread env p = 41)
    (h36 : ¬(pread env p = 36 ∧ p + 1 = env.pattern.length))
    (hb : pread env p = 37 ∧ pread env (p + 1) = 98)
    (heq : matchbalance env s (p + 2) = Except.ok (some r)) :
    matchBody d env st s p = matchBody d env st r (p + 4) := by
  rw [matchBody, if_neg h1, if_neg h40, if_neg h41, if_neg h36, dif_pos hb]
  split
  · rename_i e2 heq2
    rw [heq] at heq2
    simp at heq2
  · rename_i heq2
    rw [heq] at heq2
    simp at heq2
  · rename_i r2 heq2
    rw [heq] at heq2
    simp only [Except.ok.injEq, Option.some.injEq] at heq2
    rw [heq2]

theorem mB_f_nob (d : Nat) (env : Env) (st : St) (s p : Nat)
    (h1 : ¬p = env.pattern.length) (h40 : ¬pread env p = 40)
    (h41 : ¬pread env p = 41)
    (h36 : ¬(pread env p = 36 ∧ p + 1 = env.pattern.length))
    (hb : ¬(pread env p = 37 ∧ pread env (p + 1) = 98))
    (hf : pread env p = 37 ∧ pread env (p + 1) = 102)
    (h91 : pread env (p + 2) ≠ 91) :
    matchBody d env st s p = (Except.error .frontier_no_open_bracket, st) := by
  rw [matchBody, if_neg h1, if_neg h40, if_neg h41, if_neg h36, dif_neg hb,
    dif_pos hf, dif_pos h91]

theorem mB_f_err (d : Nat) (env : Env) (st : St) (s p : Nat) (e : ErrT)
    (h1 : ¬p = env.pattern.length) (h40 : ¬pread env p = 40)
    (h41 : ¬pread env p = 41)
    (h36 : ¬(pread env p = 36 ∧ p + 1 = env.pattern.length))
    (hb : ¬(pread env p = 37 ∧ pread env (p + 1) = 98))
    (hf : pread env p = 37 ∧ pread env (p + 1) = 102)
    (h91 : ¬pread env (p + 2) ≠ 91)
    (heq : classend env (p + 2) = Except.error e) :
    matchBody d env st s p = (Except.error e, st) := by
  rw [matchBody, if_neg h1, if_neg h40, if_neg h41, if_neg h36, dif_neg hb,
    dif_pos hf, dif_neg h91]
  split
  · rename_i e2 heq2
    rw [heq] at heq2
    simp only [Except.error.injEq] at heq2
    rw [heq2]
  · rename_i ep2 heq2
    rw [heq] at heq2
    simp at heq2

theorem mB_f_ok (d : Nat) (env : Env) (st : St) (s p ep : Nat)
    (h1 : ¬p = env.pattern.length) (h40 : ¬pread env p = 40)
    (h41 : ¬pread env p = 41)
    (h36 : ¬(pread env p = 36 ∧ p + 1 = env.pattern.length))
    (hb : ¬(pread env p = 37 ∧ pread env (p + 1) = 98))
    (hf : pread env p = 37 ∧ pread env (p + 1) = 102)
    (h91 : ¬pread env (p + 2) ≠ 91)
    (heq : classend env (p + 2) = Except.ok ep) :
    matchBody d env st s p =
      (if ¬ matchbracketclass env (if s = 0 then 0 else sread env (s - 1)) (p + 2) (ep - 1) = true
          ∧ matchbracketclass env (sread env s) (p + 2) (ep - 1) = true
       then matchBody d env st s ep
       else (Except.ok none, st)) := by
  rw [matchBody, if_neg h1, if_neg h40, if_neg h41, if_neg h36, dif_neg hb,
    dif_pos hf, dif_neg h91]
  split
  · rename_i e2 heq2
    rw [heq] at heq2
    simp at heq2
  · rename_i ep2 heq2
    rw [heq] at heq2
    simp only [Except.ok.injEq] at heq2
    rw [heq2]

theorem mB_digit_err (d : Nat) (env : Env) (st : St) (s p : Nat) (e : ErrT)
    (h1 : ¬p = env.pattern.length) (h40 : ¬pread env p = 40)
    (h41 : ¬pread env p = 41)
    (h36 : ¬(pread env p = 36 ∧ p + 1 = env.pattern.length))
    (hb : ¬(pread env p = 37 ∧ pread env (p + 1) = 98))
    (hf : ¬(pread env p = 37 ∧ pread env (p + 1) = 102))
    (hg : pread env p = 37 ∧ 48 ≤ pread env (p + 1) ∧ pread env (p + 1) ≤ 57)
    (heq : match_capture env st s (pread env (p + 1)) = Except.error e) :
    matchBody d env st s p = (Except.error e, st) := by
  rw [matchBody, if_neg h1, if_neg h40, if_neg h41, if_neg h36, dif_neg hb,
    dif_neg hf, dif_pos hg]
  split
  · rename_i e2 heq2
    rw [heq] at heq2
    simp only [Except.error.injEq] at heq2
    rw [heq2]
  · rename_i r2 heq2
    rw [heq] at heq2
    simp at heq2
  · rename_i heq2
    rw [heq] at heq2
    simp at heq2

theorem mB_digit_some (d : Nat) (env : Env) (st : St) (s p r : Nat)
    (h1 : ¬p = env.pattern.length) (h40 : ¬pread env p = 40)
    (h41 : ¬pread env p = 41)
    (h36 : ¬(pread env p = 36 ∧ p + 1 = env.pattern.length))
    (hb : ¬(pread env p = 37 ∧ pread env (p + 1) = 98))
    (hf : ¬(pread env p = 37 ∧ pread env (p + 1) = 102))
    (hg : pread env p = 37 ∧ 48 ≤ pread env (p + 1) ∧ pread env (p + 1) ≤ 57)
    (heq : match_capture env st s (pread env (p + 1)) = Except.ok (some r)) :
    matchBody d env st s p = matchBody d env st r (p + 2) := by
  rw [matchBody, if_neg h1, if_neg h40, if_neg h41, if_neg h36, dif_neg hb,
    dif_neg hf, dif_pos hg]
  split
  · rename_i e2 heq2
    rw [heq] at heq2
    simp at heq2
  · rename_i r2 heq2
    rw [heq] at heq2
    simp only [Except.ok.injEq, Option.some.injEq] at heq2
    rw [heq2]
  · rename_i heq2
    rw [heq] at heq2
    simp at heq2

theorem mB_digit_none (d : Nat) (env : Env) (st : St) (s p : Nat)
    (h1 : ¬p = env.pattern.length) (h40 : ¬pread env p = 40)
    (h41 : ¬pread env p = 41)
    (h36 : ¬(pread env p = 36 ∧ p + 1 = env.pattern.length))
    (hb : ¬(pread env p = 37 ∧ pread env (p + 1) = 98))
    (hf : ¬(pread env p = 37 ∧ pread env (p + 1) = 102))
    (hg : pread env p = 37 ∧ 48 ≤ pread env (p + 1) ∧ pread env (p + 1) ≤ 57)
    (heq : match_capture env st s (pread env (p + 1)) = Except.ok none) :
    matchBody d env st s p = dflt d env st s p := by
  rw [matchBody, if_neg h1, if_neg h40, if_neg h41, if_neg h36, dif_neg hb,
    dif_neg hf, dif_pos hg]
  split
  · rename_i e2 heq2
    rw [heq] at heq2
    simp at heq2
  · rename_i r2 heq2
    rw [heq] at heq2
    simp at heq2
  · rfl

theorem mB_dflt (d : Nat) (env : Env) (st : St) (s p : Nat)
    (h1 : ¬p = env.pattern.length) (h40 : ¬pread env p = 40)
    (h41 : ¬pread env p = 41)
    (h36 : ¬(pread env p = 36 ∧ p + 1 = env.pattern.length))
    (hb : ¬(pread env p = 37 ∧ pread env (p + 1) = 98))
    (hf : ¬(pread env p = 37 ∧ pread env (p + 1) = 102))
    (hg : ¬(pread env p = 37 ∧ 48 ≤ pread env (p + 1) ∧ pread env (p + 1) ≤ 57)) :
    matchBody d env st s p = dflt d env st s p := by
  rw [matchBody, if_neg h1, if_neg h40, if_neg h41, if_neg h36, dif_neg hb,
    dif_neg hf, dif_neg hg]

theorem df_err (d : Nat) (env : Env) (st : St) (s p : Nat) (e : ErrT)
    (heq : classend env p = Except.error e) :
    dflt d env st s p = (Except.error e, st) := by
  rw [dflt]
  split
  · rename_i e2 heq2
    rw [heq] at heq2
    simp only [Except.error.injEq] at heq2
    rw [heq2]
  · rename_i ep2 heq2
    rw [heq] at heq2
    simp at heq2

theorem df_q (d : Nat) (env : Env) (st : St) (s p ep : Nat)
    (heq : classend env p = Except.ok ep)
    (hsm : singlematch env s p ep = true) (h63 : pread env ep = 63) :
    dflt d env st s p =
      (match lexMatch d env st (s + 1) (ep + 1) with
       | (Except.ok none, st2) => matchBody d env st2 s (ep + 1)
       | r => r) := by
  rw [dflt]
  split
  · rename_i e2 heq2
    rw [heq] at heq2
    simp at heq2
  · rename_i ep2 heq2
    rw [heq] at heq2
    simp only [Except.ok.injEq] at heq2
    subst heq2
    rw [dif_pos hsm, if_pos h63]

theorem df_plus (d : Nat) (env : Env) (st : St) (s p ep : Nat)
    (heq : classend env p = Except.ok ep)
    (hsm : singlematch env s p ep = true) (h63 : ¬pread env ep = 63)
    (h43 : pread env ep = 43) :
    dflt d env st s p = maxExpand d env st (s + 1) p ep := by
  rw [dflt]
  split
  · rename_i e2 heq2
    rw [heq] at heq2
    simp at heq2
  · rename_i ep2 heq2
    rw [heq] at heq2
    simp only [Except.ok.injEq] at heq2
    subst heq2
    rw [dif_pos hsm, if_neg h63, if_pos h43]

theorem df_star (d : Nat) (env : Env) (st : St) (s p ep : Nat)
    (heq : classend env p = Except.ok ep)
    (hsm : singlematch env s p ep = true) (h63 : ¬pread env ep = 63)
    (h43 : ¬pread env ep = 43) (h42 : pread env ep = 42) :
    dflt d env st s p = maxExpand d env st s p ep := by
  rw [dflt]
  split
  · rename_i e2 heq2
    rw [heq] at heq2
    simp at heq2
  · rename_i ep2 heq2
    rw [heq] at heq2
    simp only [Except.ok.injEq] at heq2
    subst heq2
    rw [dif_pos hsm, if_neg h63, if_neg h43, if_pos h42]

theorem df_minus (d : Nat) (env : Env) (st : St) (s p ep : Nat)
    (heq : classend env p = Except.ok ep)
    (hsm : singlematch env s p ep = true) (h63 : ¬pread env ep = 63)
    (h43 : ¬pread env ep = 43) (h42 : ¬pread env ep = 42)
    (h45 : pread env ep = 45) :
    dflt d env st s p = minExpand d env st s p ep := by
  rw [dflt]
  split
  · rename_i e2 heq2
    rw [heq] at heq2
    simp at heq2
  · rename_i ep2 heq2
    rw [heq] at heq2
    simp only [Except.ok.injEq] at heq2
    subst heq2
    rw [dif_pos hsm, if_neg h63, if_neg h43, if_neg h42, if_pos h45]

theorem df_bare (d : Nat) (env : Env) (st : St) (s p ep : Nat)
    (heq : classend env p = Except.ok ep)
    (hsm : singlematch env s p ep = true) (h63 : ¬pread env ep = 63)
    (h43 : ¬pread env ep = 43) (h42 : ¬pread env ep = 42)
    (h45 : ¬pread env ep = 45) :
    dflt d env st s p = matchBody d env st (s + 1) ep := by
  rw [dflt]
  split
  · rename_i e2 heq2
    rw [heq] at heq2
    simp at heq2
  · rename_i ep2 heq2
    rw [heq] at heq2
    simp only [Except.ok.injEq] at heq2
    subst heq2
    rw [dif_pos hsm, if_neg h63, if_neg h43, if_neg h42, if_neg h45]

theorem df_empty (d : Nat) (env : Env) (st : St) (s p ep : Nat)
    (heq : classend env p = Except.ok ep)
    (hsm : ¬singlematch env s p ep = true)
    (hsfx : pread env ep = 42 ∨ pread env ep = 63 ∨ pread env ep = 45) :
    dflt d env st s p = matchBody d env st s (ep + 1) := by
  rw [dflt]
  split
  · rename_i e2 heq2
    rw [heq] at heq2
    simp at heq2
  · rename_i ep2 heq2
    rw [heq] at heq2
    simp only [Except.ok.injEq] at heq2
    subst heq2
    rw [dif_neg hsm, dif_pos hsfx]

theorem df_fail (d : Nat) (env : Env) (st : St) (s p ep : Nat)
    (heq : classend env p = Except.ok ep)
    (hsm : ¬singlematch env s p ep = true)
    (hsfx : ¬(pread env ep = 42 ∨ pread env ep = 63 ∨ pread env ep = 45)) :
    dflt d env st s p = (Except.ok none, st) := by
  rw [dflt]
  split
  · rename_i e2 heq2
    rw [heq] at heq2
    simp at heq2
  · rename_i ep2 heq2
    rw [heq] at heq2
    simp only [Except.ok.injEq] at heq2
    subst heq2
    rw [dif_neg hsm, dif_neg hsfx]

theorem sc_over (d : Nat) (env : Env) (st : St) (s p : Nat)
    (h : MAXCAPTURES ≤ st.level) :
    startCapture d env st s p = (Except.error .capture_too_many, st) := by
  rw [startCapture, if_pos h]

theorem sc_run (d : Nat) (env : Env) (st : St) (s p : Nat)
    (h : ¬MAXCAPTURES ≤ st.level) :
    startCapture d env st s p =
      (match lexMatch d env
          ⟨st.level + 1, st.captures.set st.level
            ⟨s, if pread env p = 41 then -2 else -1⟩⟩ s
          (if pread env p = 41 then p + 1 else p) with
       | (Except.ok none, st2) =>
         (Except.ok none, ⟨st2.level - 1, setLen st2.captures (st2.level - 1) (-1)⟩)
       | r => r) := by
  rw [startCapture, if_neg h]

theorem ec_none (d : Nat) (env : Env) (st : St) (s p : Nat)
    (h : highestUnfinished st.captures st.level = none) :
    endCapture d env st s p = (Except.error .capture_invalid_pattern, st) := by
  rw [endCapture, h]

theorem ec_some (d : Nat) (env : Env) (st : St) (s p i : Nat)
    (h : highestUnfinished st.captures st.level = some i) :
    endCapture d env st s p =
      (match lexMatch d env
          ⟨st.level, setLen st.captures i
            ((s : Int) - ((st.captures.getD i default).init : Int))⟩ s p with
       | (Except.ok none, st2) => (Except.ok none, ⟨st2.level, setLen st2.captures i (-1)⟩)
       | r => r) := by
  rw [endCapture, h]

theorem minExpand_eq (d : Nat) (env : Env) (st : St) (s p ep : Nat) :
    minExpand d env st s p ep =
      (match lexMatch d env st s (ep + 1) with
       | (Except.ok none, st2) =>
         if _ : singlematch env s p ep = true then minExpand d env st2 (s + 1) p ep
         else (Except.ok none, st2)
       | r => r) := by
  rw [minExpand]

theorem maxTry_eq (d : Nat) (env : Env) (st : St) (s ep i : Nat) :
    maxTry d env st s ep i =
      (match lexMatch d env st (s + i) (ep + 1) with
       | (Except.ok none, st2) =>
         if i = 0 then (Except.ok none, st2) else maxTry d env st2 s ep (i - 1)
       | r => r) := by
  rw [maxTry]

theorem maxExpand_eq (d : Nat) (env : Env) (st : St) (s p ep : Nat) :
    maxExpand d env st s p ep = maxTry d env st s ep (countRun env s p ep) := by
  rw [maxExpand]

/-- Congruence: core routines started in observably equal states return
the same result and leave observably equal states. -/
theorem eqv_congr : ∀ (d : Nat) (env : Env) (st : St) (s p : Nat) (st' : St),
    eqv st st' →
    (lexMatch d env st s p).1 = (lexMatch d env st' s p).1 ∧
    eqv (lexMatch d env st s p).2 (lexMatch d env st' s p).2 := by
  have main : ∀ (d : Nat) (env : Env) (st : St) (s p : Nat), ∀ st', eqv st st' →
      (lexMatch d env st s p).1 = (lexMatch d env st' s p).1 ∧
      eqv (lexMatch d env st s p).2 (lexMatch d env st' s p).2 := by
    refine lexMatch.induct
      (fun d env st s p => ∀ st', eqv st st' →
        (lexMatch d env st s p).1 = (lexMatch d env st' s p).1 ∧
        eqv (lexMatch d env st s p).2 (lexMatch d env st' s p).2)
      (fun d env st s p => ∀ st', eqv st st' →
        (matchBody d env st s p).1 = (matchBody d env st' s p).1 ∧
        eqv (matchBody d env st s p).2 (matchBody d env st' s p).2)
      (fun d env st s p => ∀ st', eqv st st' →
        (dflt d env st s p).1 = (dflt d env st' s p).1 ∧
        eqv (dflt d env st s p).2 (dflt d env st' s p).2)
      (fun d env st s p ep => ∀ st', eqv st st' →
        (minExpand d env st s p ep).1 = (minExpand d env st' s p ep).1 ∧
        eqv (minExpand d env st s p ep).2 (minExpand d env st' s p ep).2)
      (fun d env st s p ep => ∀ st', eqv st st' →
        (maxExpand d env st s p ep).1 = (maxExpand d env st' s p ep).1 ∧
        eqv (maxExpand d env st s p ep).2 (maxExpand d env st' s p ep).2)
      (fun d env st s ep i => ∀ st', eqv st st' →
        (maxTry d env st s ep i).1 = (maxTry d env st' s ep i).1 ∧
        eqv (maxTry d env st s ep i).2 (maxTry d env st' s ep i).2)
      (fun d env st s p => ∀ st', eqv st st' →
        (endCapture d env st s p).1 = (endCapture d env st' s p).1 ∧
        eqv (endCapture d env st s p).2 (endCapture d env st' s p).2)
      (fun d env st s p => ∀ st', eqv st st' →
        (startCapture d env st s p).1 = (startCapture d env st' s p).1 ∧
        eqv (startCapture d env st s p).2 (startCapture d env st' s p).2)
      ?_ ?_ ?_ ?_ ?_ ?_ ?_ ?_ ?_ ?_ ?_ ?_ ?_ ?_ ?_ ?_ ?_ ?_ ?_ ?_
      ?_ ?_ ?_ ?_ ?_ ?_ ?_ ?_ ?_ ?_ ?_ ?_ ?_ ?_ ?_ ?_ ?_ ?_ ?_ ?_
    -- lexMatch, budget exhausted
    · intro env st s p st' h
      rw [lexMatch, if_pos rfl, lexMatch, if_pos rfl]
      exact ⟨rfl, h⟩
    -- lexMatch, dispatch
    · intro d env st s p hd ih st' h
      rw [lexMatch, if_neg hd, lexMatch, if_neg hd]
      exact ih st' h
    -- matchBody, pattern end
    · intro d env st s st' h
      rw [mB_end d env st s _ rfl, mB_end d env st' s _ rfl]
      exact ⟨rfl, h⟩
    -- matchBody, open capture
    · intro d env st s p h1 h40 ih st' h
      rw [mB_open d env st s p h1 h40, mB_open d env st' s p h1 h40]
      exact ih st' h
    -- matchBody, close capture
    · intro d env st s p h1 h40 h41 ih st' h
      rw [mB_close d env st s p h1 h40 h41, mB_close d env st' s p h1 h40 h41]
      exact ih st' h
    -- matchBody, final dollar at subject end
    · intro d env st p h1 h40 h41 h36 st' h
      rw [mB_dollar d env st _ p h1 h40 h41 h36,
        mB_dollar d env st' _ p h1 h40 h41 h36, if_pos rfl, if_pos rfl]
      exact ⟨rfl, h⟩
    -- matchBody, final dollar not at subject end
    · intro d env st s p h1 h40 h41 h36 hs st' h
      rw [mB_dollar d env st s p h1 h40 h41 h36,
        mB_dollar d env st' s p h1 h40 h41 h36, if_neg hs, if_neg hs]
      exact ⟨rfl, h⟩
    -- matchBody, %b raising
    · intro d env st s p h1 h40 h41 h36 hb e heq st' h
      rw [mB_bal_err d env st s p e h1 h40 h41 h36 hb heq,
        mB_bal_err d env st' s p e h1 h40 h41 h36 hb heq]
      exact ⟨rfl, h⟩
    -- matchBody, %b failing
    · intro d env st s p h1 h40 h41 h36 hb heq st' h
      rw [mB_bal_none d env st s p h1 h40 h41 h36 hb heq,
        mB_bal_none d env st' s p h1 h40 h41 h36 hb heq]
      exact ⟨rfl, h⟩
    -- matchBody, %b succeeding
    · intro d env st s p h1 h40 h41 h36 hb r heq ih st' h
      rw [mB_bal_some d env st s p r h1 h40 h41 h36 hb heq,
        mB_bal_some d env st' s p r h1 h40 h41 h36 hb heq]
      exact ih st' h
    -- matchBody, frontier without bracket
    · intro d env st s p h1 h40 h41 h36 hb hf h91 st' h
      rw [mB_f_nob d env st s p h1 h40 h41 h36 hb hf h91,
        mB_f_nob d env st' s p h1 h40 h41 h36 hb hf h91]
      exact ⟨rfl, h⟩
    -- matchBody, frontier classend raising
    · intro d env st s p h1 h40 h41 h36 hb hf h91 e heq st' h
      rw [mB_f_err d env st s p e h1 h40 h41 h36 hb hf h91 heq,
        mB_f_err d env st' s p e h1 h40 h41 h36 hb hf h91 heq]
      exact ⟨rfl, h⟩
    -- matchBody, frontier passing
    · intro d env st s p h1 h40 h41 h36 hb hf h91 ep heq hbr ih st' h
      simp only [dite_eq_ite] at hbr
      rw [mB_f_ok d env st s p ep h1 h40 h41 h36 hb hf h91 heq,
        mB_f_ok d env st' s p ep h1 h40 h41 h36 hb hf h91 heq,
        if_pos hbr, if_pos hbr]
      exact ih st' h
    -- matchBody, frontier failing
    · intro d env st s p h1 h40 h41 h36 hb hf h91 ep heq hbr st' h
      simp only [dite_eq_ite] at hbr
      rw [mB_f_ok d env st s p ep h1 h40 h41 h36 hb hf h91 heq,
        mB_f_ok d env st' s p ep h1 h40 h41 h36 hb hf h91 heq,
        if_neg hbr, if_neg hbr]
      exact ⟨rfl, h⟩
    -- matchBody, backreference raising
    · intro d env st s p h1 h40 h41 h36 hb hf hg e heq st' h
      have heq' : match_capture env st' s (pread env (p + 1)) = Except.error e := by
        rw [← match_capture_eqv env st st' s _ h]
        exact heq
      rw [mB_digit_err d env st s p e h1 h40 h41 h36 hb hf hg heq,
        mB_digit_err d env st' s p e h1 h40 h41 h36 hb hf hg heq']
      exact ⟨rfl, h⟩
    -- matchBody, backreference succeeding
    · intro d env st s p h1 h40 h41 h36 hb hf hg r heq ih st' h
      have heq' : match_capture env st' s (pread env (p + 1)) = Except.ok (some r) := by
        rw [← match_capture_eqv env st st' s _ h]
        exact heq
      rw [mB_digit_some d env st s p r h1 h40 h41 h36 hb hf hg heq,
        mB_digit_some d env st' s p r h1 h40 h41 h36 hb hf hg heq']
      exact ih st' h
    -- matchBody, backreference mismatch falling through
    · intro d env st s p h1 h40 h41 h36 hb hf hg heq ih st' h
      have heq' : match_capture env st' s (pread env (p + 1)) = Except.ok none := by
        rw [← match_capture_eqv env st st' s _ h]
        exact heq
      rw [mB_digit_none d env st s p h1 h40 h41 h36 hb hf hg heq,
        mB_digit_none d env st' s p h1 h40 h41 h36 hb hf hg heq']
      exact ih st' h
    -- matchBody, default item
    · intro d env st s p h1 h40 h41 h36 hb hf hg ih st' h
      rw [mB_dflt d env st s p h1 h40 h41 h36 hb hf hg,
        mB_dflt d env st' s p h1 h40 h41 h36 hb hf hg]
      exact ih st' h
    -- dflt, classend raising
    · intro d env st s p e heq st' h
      rw [df_err d env st s p e heq, df_err d env st' s p e heq]
      exact ⟨rfl, h⟩
    -- dflt, optional suffix with backtracked first branch
    · intro d env st s p ep hce hsm h63 st2 heq ih1 ih2 st' h
      rw [df_q d env st s p ep hce hsm h63, df_q d env st' s p ep hce hsm h63]
      rcases hres' : lexMatch d env st' (s + 1) (ep + 1) with ⟨r1', stx'⟩
      have hI := ih1 st' h
      rw [heq, hres'] at hI
      obtain ⟨hI1, hI2⟩ := hI
      dsimp only at hI1 hI2
      rw [heq, ← hI1]
      dsimp only
      exact ih2 stx' hI2
    -- dflt, optional suffix with successful or raising first branch
    · intro d env st s p ep hce hsm h63 hcontra ih1 st' h
      rw [df_q d env st s p ep hce hsm h63, df_q d env st' s p ep hce hsm h63]
      rcases hres : lexMatch d env st (s + 1) (ep + 1) with ⟨r1, stx⟩
      rcases hres' : lexMatch d env st' (s + 1) (ep + 1) with ⟨r1', stx'⟩
      have hI := ih1 st' h
      rw [hres, hres'] at hI
      obtain ⟨hI1, hI2⟩ := hI
      dsimp only at hI1 hI2
      rw [← hI1]
      match r1, hI1 with
      | Except.ok none, hI1 => exact absurd hres (fun hc => hcontra stx hc)
      | Except.ok (some e), hI1 => exact ⟨rfl, hI2⟩
      | Except.error e, hI1 => exact ⟨rfl, hI2⟩
    -- dflt, plus suffix
    · intro d env st s p ep hce hsm h63 h43 ih st' h
      rw [df_plus d env st s p ep hce hsm h63 h43,
        df_plus d env st' s p ep hce hsm h63 h43]
      exact ih st' h
    -- dflt, star suffix
    · intro d env st s p ep hce hsm h63 h43 h42 ih st' h
      rw [df_star d env st s p ep hce hsm h63 h43 h42,
        df_star d env st' s p ep hce hsm h63 h43 h42]
      exact ih st' h
    -- dflt, minus suffix
    · intro d env st s p ep hce hsm h63 h43 h42 h45 ih st' h
      rw [df_minus d env st s p ep hce hsm h63 h43 h42 h45,
        df_minus d env st' s p ep hce hsm h63 h43 h42 h45]
      exact ih st' h
    -- dflt, bare item
    · intro d env st s p ep hce hsm h63 h43 h42 h45 ih st' h
      rw [df_bare d env st s p ep hce hsm h63 h43 h42 h45,
        df_bare d env st' s p ep hce hsm h63 h43 h42 h45]
      exact ih st' h
    -- dflt, unmatched item with empty-accepting suffix
    · intro d env st s p ep hce hsm hsfx ih st' h
      rw [df_empty d env st s p ep hce hsm hsfx,
        df_empty d env st' s p ep hce hsm hsfx]
      exact ih st' h
    -- dflt, unmatched item without suffix
    · intro d env st s p ep hce hsm hsfx st' h
      rw [df_fail d env st s p ep hce hsm hsfx,
        df_fail d env st' s p ep hce hsm hsfx]
      exact ⟨rfl, h⟩
    -- minExpand, backtracked then consuming
    · intro d env st s p ep st2 heq hsm ih1 ih2 st' h
      rw [minExpand_eq d env st s p ep, minExpand_eq d env st' s p ep]
      rcases hres' : lexMatch d env st' s (ep + 1) with ⟨r1', stx'⟩
      have hI := ih1 st' h
      rw [heq, hres'] at hI
      obtain ⟨hI1, hI2⟩ := hI
      dsimp only at hI1 hI2
      rw [heq, ← hI1]
      dsimp only
      rw [dif_pos hsm, dif_pos hsm]
      exact ih2 stx' hI2
    -- minExpand, backtracked and item exhausted
    · intro d env st s p ep st2 heq hsm ih1 st' h
      rw [minExpand_eq d env st s p ep, minExpand_eq d env st' s p ep]
      rcases hres' : lexMatch d env st' s (ep + 1) with ⟨r1', stx'⟩
      have hI := ih1 st' h
      rw [heq, hres'] at hI
      obtain ⟨hI1, hI2⟩ := hI
      dsimp only at hI1 hI2
      rw [heq, ← hI1]
      dsimp only
      rw [dif_neg hsm, dif_neg hsm]
      exact ⟨rfl, hI2⟩
    -- minExpand, immediate success or raise
    · intro d env st s p ep hcontra ih1 st' h
      rw [minExpand_eq d env st s p ep, minExpand_eq d env st' s p ep]
      rcases hres : lexMatch d env st s (ep + 1) with ⟨r1, stx⟩
      rcases hres' : lexMatch d env st' s (ep + 1) with ⟨r1', stx'⟩
      have hI := ih1 st' h
      rw [hres, hres'] at hI
      obtain ⟨hI1, hI2⟩ := hI
      dsimp only at hI1 hI2
      rw [← hI1]
      match r1, hI1 with
      | Except.ok none, hI1 => exact absurd hres (fun hc => hcontra stx hc)
      | Except.ok (some e), hI1 => exact ⟨rfl, hI2⟩
      | Except.error e, hI1 => exact ⟨rfl, hI2⟩
    -- maxExpand
    · intro d env st s p ep ih st' h
      rw [maxExpand_eq d env st s p ep, maxExpand_eq d env st' s p ep]
      exact ih st' h
    -- maxTry, zero expansion failing
    · intro d env st s ep st2 heq ih1 st' h
      rw [maxTry_eq d env st s ep 0, maxTry_eq d env st' s ep 0]
      rcases hres' : lexMatch d env st' (s + 0) (ep + 1) with ⟨r1', stx'⟩
      have hI := ih1 st' h
      rw [heq, hres'] at hI
      obtain ⟨hI1, hI2⟩ := hI
      dsimp only at hI1 hI2
      rw [heq, ← hI1]
      dsimp only
      rw [if_pos rfl, if_pos rfl]
      exact ⟨rfl, hI2⟩
    -- maxTry, failing attempt then countdown
    · intro d env st s ep i st2 heq hne0 ih1 ih2 st' h
      rw [maxTry_eq d env st s ep i, maxTry_eq d env st' s ep i]
      rcases hres' : lexMatch d env st' (s + i) (ep + 1) with ⟨r1', stx'⟩
      have hI := ih1 st' h
      rw [heq, hres'] at hI
      obtain ⟨hI1, hI2⟩ := hI
      dsimp only at hI1 hI2
      rw [heq, ← hI1]
      dsimp only
      rw [if_neg hne0, if_neg hne0]
      exact ih2 stx' hI2
    -- maxTry, successful or raising attempt
    · intro d env st s ep i hcontra ih1 st' h
      rw [maxTry_eq d env st s ep i, maxTry_eq d env st' s ep i]
      rcases hres : lexMatch d env st (s + i) (ep + 1) with ⟨r1, stx⟩
      rcases hres' : lexMatch d env st' (s + i) (ep + 1) with ⟨r1', stx'⟩
      have hI := ih1 st' h
      rw [hres, hres'] at hI
      obtain ⟨hI1, hI2⟩ := hI
      dsimp only at hI1 hI2
      rw [← hI1]
      match r1, hI1 with
      | Except.ok none, hI1 => exact absurd hres (fun hc => hcontra stx hc)
      | Except.ok (some e), hI1 => exact ⟨rfl, hI2⟩
      | Except.error e, hI1 => exact ⟨rfl, hI2⟩
    -- endCapture, no unfinished slot
    · intro d env st s p hnone st' h
      have hs' : highestUnfinished st'.captures st'.level = none := by
        rw [← h.1, ← highestUnfinished_eqv st st' h st.level (le_refl _)]
        exact hnone
      rw [ec_none d env st s p hnone, ec_none d env st' s p hs']
      exact ⟨rfl, h⟩
    -- endCapture, backtracked
    · intro d env st s p i hsome st2 heq ih1 st' h
      have hs' : highestUnfinished st'.captures st'.level = some i := by
        rw [← h.1, ← highestUnfinished_eqv st st' h st.level (le_refl _)]
        exact hsome
      obtain ⟨hilt, hl⟩ := highestUnfinished_some st.captures st.level i hsome
      have hinit : st'.captures.getD i default = st.captures.getD i default :=
        (h.2.2 i hilt).symm
      rw [ec_some d env st s p i hsome, ec_some d env st' s p i hs', hinit]
      have heqv1 := eqv_setLen st st' h i
        ((s : Int) - ((st.captures.getD i default).init : Int)) hilt
      rcases hres' : lexMatch d env
          ⟨st'.level, setLen st'.captures i
            ((s : Int) - ((st.captures.getD i default).init : Int))⟩ s p with ⟨r1', stx'⟩
      have hI := ih1 ⟨st'.level, setLen st'.captures i
        ((s : Int) - ((st.captures.getD i default).init : Int))⟩ heqv1
      rw [heq, hres'] at hI
      obtain ⟨hI1, hI2⟩ := hI
      dsimp only at hI1 hI2
      rw [heq, ← hI1]
      dsimp only
      have hpost := post_lex d env ⟨st.level, setLen st.captures i
        ((s : Int) - ((st.captures.getD i default).init : Int))⟩ s p
      rw [heq] at hpost
      have hlev2 := (hpost.2.2.2.1 rfl).2.1
      dsimp only at hlev2
      exact ⟨rfl, eqv_undo_close st2 stx' hI2 i (by omega)⟩
    -- endCapture, passing through
    · intro d env st s p i hsome hcontra ih1 st' h
      have hs' : highestUnfinished st'.captures st'.level = some i := by
        rw [← h.1, ← highestUnfinished_eqv st st' h st.level (le_refl _)]
        exact hsome
      obtain ⟨hilt, hl⟩ := highestUnfinished_some st.captures st.level i hsome
      have hinit : st'.captures.getD i default = st.captures.getD i default :=
        (h.2.2 i hilt).symm
      rw [ec_some d env st s p i hsome, ec_some d env st' s p i hs', hinit]
      have heqv1 := eqv_setLen st st' h i
        ((s : Int) - ((st.captures.getD i default).init : Int)) hilt
      rcases hres : lexMatch d env
          ⟨st.level, setLen st.captures i
            ((s : Int) - ((st.captures.getD i default).init : Int))⟩ s p with ⟨r1, stx⟩
      rcases hres' : lexMatch d env
          ⟨st'.level, setLen st'.captures i
            ((s : Int) - ((st.captures.getD i default).init : Int))⟩ s p with ⟨r1', stx'⟩
      have hI := ih1 ⟨st'.level, setLen st'.captures i
        ((s : Int) - ((st.captures.getD i default).init : Int))⟩ heqv1
      rw [hres, hres'] at hI
      obtain ⟨hI1, hI2⟩ := hI
      dsimp only at hI1 hI2
      rw [← hI1]
      match r1, hI1 with
      | Except.ok none, hI1 => exact absurd hres (fun hc => hcontra stx hc)
      | Except.ok (some e), hI1 => exact ⟨rfl, hI2⟩
      | Except.error e, hI1 => exact ⟨rfl, hI2⟩
    -- startCapture, too many captures
    · intro d env st s p hover st' h
      rw [sc_over d env st s p hover, sc_over d env st' s p (h.1 ▸ hover)]
      exact ⟨rfl, h⟩
    -- startCapture, backtracked
    · intro d env st s p hnover st2 heq ih1 st' h
      simp only [dite_eq_ite] at heq ih1
      rw [sc_run d env st s p hnover,
        sc_run d env st' s p (h.1 ▸ hnover)]
      have heqv1 := eqv_open st st' h ⟨s, if pread env p = 41 then -2 else -1⟩
      rcases hres' : lexMatch d env
          ⟨st'.level + 1, st'.captures.set st'.level
            ⟨s, if pread env p = 41 then -2 else -1⟩⟩ s
          (if pread env p = 41 then p + 1 else p) with ⟨r1', stx'⟩
      have hI := ih1 ⟨st'.level + 1, st'.captures.set st'.level
        ⟨s, if pread env p = 41 then -2 else -1⟩⟩ heqv1
      rw [heq, hres'] at hI
      obtain ⟨hI1, hI2⟩ := hI
      dsimp only at hI1 hI2
      rw [heq, ← hI1]
      dsimp only
      exact ⟨rfl, eqv_undo st2 stx' hI2⟩
    -- startCapture, passing through
    · intro d env st s p hnover hcontra ih1 st' h
      simp only [dite_eq_ite] at hcontra ih1
      rw [sc_run d env st s p hnover,
        sc_run d env st' s p (h.1 ▸ hnover)]
      have heqv1 := eqv_open st st' h ⟨s, if pread env p = 41 then -2 else -1⟩
      rcases hres : lexMatch d env
          ⟨st.level + 1, st.captures.set st.level
            ⟨s, if pread env p = 41 then -2 else -1⟩⟩ s
          (if pread env p = 41 then p + 1 else p) with ⟨r1, stx⟩
      rcases hres' : lexMatch d env
          ⟨st'.level + 1, st'.captures.set st'.level
            ⟨s, if pread env p = 41 then -2 else -1⟩⟩ s
          (if pread env p = 41 then p + 1 else p) with ⟨r1', stx'⟩
      have hI := ih1 ⟨st'.level + 1, st'.captures.set st'.level
        ⟨s, if pread env p = 41 then -2 else -1⟩⟩ heqv1
      rw [hres, hres'] at hI
      obtain ⟨hI1, hI2⟩ := hI
      dsimp only at hI1 hI2
      rw [← hI1]
      match r1, hI1 with
      | Except.ok none, hI1 => exact absurd hres (fun hc => hcontra stx hc)
      | Except.ok (some e), hI1 => exact ⟨rfl, hI2⟩
      | Except.error e, hI1 => exact ⟨rfl, hI2⟩
  intro d env st s p st' h
  exact main d env st s p st' h

theorem eqv_symm (a b : St) (h : eqv a b) : eqv b a :=
  ⟨h.1.symm, h.2.1.symm, fun i hi => (h.2.2 i (h.1 ▸ hi)).symm⟩

theorem eqv_trans (a b c : St) (h1 : eqv a b) (h2 : eqv b c) : eqv a c :=
  ⟨h1.1.trans h2.1, h1.2.1.trans h2.2.1,
    fun i hi => (h1.2.2 i hi).trans (h2.2.2 i (h1.1 ▸ hi))⟩

/-- A backtracked call's frame is an observable equality of states. -/
theorem frame_eqv (a b : St) (h : Frame a b) : eqv a b :=
  ⟨h.2.1.symm, h.1.symm, fun i hi => (h.2.2.1 i hi).symm⟩

/-- `max_expand`'s countdown loop is insensitive to the invisible part
of the state. -/
theorem maxTry_congr (d : Nat) (env : Env) (s ep : Nat) :
    ∀ (i : Nat) (st st' : St), eqv st st' →
      (maxTry d env st s ep i).1 = (maxTry d env st' s ep i).1 ∧
      eqv (maxTry d env st s ep i).2 (maxTry d env st' s ep i).2 := by
  intro i
  induction i with
  | zero =>
    intro st st' h
    rw [maxTry_eq d env st s ep 0, maxTry_eq d env st' s ep 0]
    rcases hres : lexMatch d env st (s + 0) (ep + 1) with ⟨r1, stx⟩
    rcases hres' : lexMatch d env st' (s + 0) (ep + 1) with ⟨r1', stx'⟩
    have hI := eqv_congr d env st (s + 0) (ep + 1) st' h
    rw [hres, hres'] at hI
    obtain ⟨hI1, hI2⟩ := hI
    dsimp only at hI1 hI2
    rw [← hI1]
    match r1, hI1 with
    | Except.ok none, _ => exact ⟨rfl, hI2⟩
    | Except.ok (some e), _ => exact ⟨rfl, hI2⟩
    | Except.error e, _ => exact ⟨rfl, hI2⟩
  | succ i ih =>
    intro st st' h
    rw [maxTry_eq d env st s ep (i + 1), maxTry_eq d env st' s ep (i + 1)]
    rcases hres : lexMatch d env st (s + (i + 1)) (ep + 1) with ⟨r1, stx⟩
    rcases hres' : lexMatch d env st' (s + (i + 1)) (ep + 1) with ⟨r1', stx'⟩
    have hI := eqv_congr d env st (s + (i + 1)) (ep + 1) st' h
    rw [hres, hres'] at hI
    obtain ⟨hI1, hI2⟩ := hI
    dsimp only at hI1 hI2
    rw [← hI1]
    match r1, hI1 with
    | Except.ok none, _ => exact ih stx stx' hI2
    | Except.ok (some e), _ => exact ⟨rfl, hI2⟩
    | Except.error e, _ => exact ⟨rfl, hI2⟩

/-- If every expansion `s + j`, `j ≤ i`, fails from the entry state,
the countdown loop fails.  `st` carries the attempts, `st'` the running
state, observably equal to it. -/
theorem maxTry_all_fail (d : Nat) (env : Env) (s ep : Nat) :
    ∀ (i : Nat) (st st' : St), eqv st st' →
      (∀ j, j ≤ i → (lexMatch d env st (s + j) (ep + 1)).1 = Except.ok none) →
      (maxTry d env st' s ep i).1 = Except.ok none := by
  intro i
  induction i with
  | zero =>
    intro st st' h hall
    rw [maxTry_eq d env st' s ep 0]
    rcases hres' : lexMatch d env st' (s + 0) (ep + 1) with ⟨r1', stx'⟩
    have hI := eqv_congr d env st (s + 0) (ep + 1) st' h
    rw [hres'] at hI
    obtain ⟨hI1, _⟩ := hI
    dsimp only at hI1
    have hr : r1' = Except.ok none := hI1.symm.trans (hall 0 (le_refl 0))
    subst hr
    rfl
  | succ i ih =>
    intro st st' h hall
    rw [maxTry_eq d env st' s ep (i + 1)]
    rcases hres' : lexMatch d env st' (s + (i + 1)) (ep + 1) with ⟨r1', stx'⟩
    have hI := eqv_congr d env st (s + (i + 1)) (ep + 1) st' h
    rw [hres'] at hI
    obtain ⟨hI1, _⟩ := hI
    dsimp only at hI1
    have hr : r1' = Except.ok none := hI1.symm.trans (hall (i + 1) (le_refl _))
    subst hr
    have hfr : Frame st' stx' := by
      have hp := post_lex d env st' (s + (i + 1)) (ep + 1)
      rw [hres'] at hp
      exact hp.2.2.2.1 rfl
    have h2 : eqv st stx' := eqv_trans st st' stx' h (frame_eqv st' stx' hfr)
    exact ih st stx' h2 (fun j hj => hall j (by omega))

/-- The countdown loop returns the first non-failing attempt, scanning
the expansions in decreasing order. -/
theorem maxTry_first (d : Nat) (env : Env) (s ep : Nat) :
    ∀ (i : Nat) (st st' : St), eqv st st' → ∀ j, j ≤ i →
      (∀ k, j < k → k ≤ i → (lexMatch d env st (s + k) (ep + 1)).1 = Except.ok none) →
      (lexMatch d env st (s + j) (ep + 1)).1 ≠ Except.ok none →
      (maxTry d env st' s ep i).1 = (lexMatch d env st (s + j) (ep + 1)).1 := by
  intro i
  induction i with
  | zero =>
    intro st st' h j hj habove hne
    have hj0 : j = 0 := by omega
    subst hj0
    rw [maxTry_eq d env st' s ep 0]
    rcases hres' : lexMatch d env st' (s + 0) (ep + 1) with ⟨r1', stx'⟩
    have hI := eqv_congr d env st (s + 0) (ep + 1) st' h
    rw [hres'] at hI
    obtain ⟨hI1, _⟩ := hI
    dsimp only at hI1
    match r1', hI1 with
    | Except.ok none, hI1 => exact absurd hI1 hne
    | Except.ok (some e), hI1 => exact hI1.symm
    | Except.error e, hI1 => exact hI1.symm
  | succ i ih =>
    intro st st' h j hj habove hne
    rw [maxTry_eq d env st' s ep (i + 1)]
    rcases hres' : lexMatch d env st' (s + (i + 1)) (ep + 1) with ⟨r1', stx'⟩
    have hI := eqv_congr d env st (s + (i + 1)) (ep + 1) st' h
    rw [hres'] at hI
    obtain ⟨hI1, _⟩ := hI
    dsimp only at hI1
    by_cases hji : j = i + 1
    · subst hji
      match r1', hI1 with
      | Except.ok none, hI1 => exact absurd hI1 hne
      | Except.ok (some e), hI1 => exact hI1.symm
      | Except.error e, hI1 => exact hI1.symm
    · have htop : (lexMatch d env st (s + (i + 1)) (ep + 1)).1 = Except.ok none :=
        habove (i + 1) (by omega) (le_refl _)
      have hr : r1' = Except.ok none := hI1.symm.trans htop
      subst hr
      have hfr : Frame st' stx' := by
        have hp := post_lex d env st' (s + (i + 1)) (ep + 1)
        rw [hres'] at hp
        exact hp.2.2.2.1 rfl
      have h2 : eqv st stx' := eqv_trans st st' stx' h (frame_eqv st' stx' hfr)
      exact ih st stx' h2 j (by omega) (fun k hk1 hk2 => habove k hk1 (by omega)) hne

/-! ### Properties of the search driver -/

theorem hasUnfinished_false (caps : List Capture) (level : Nat)
    (h : hasUnfinished caps level = false) :
    ∀ i, i < level → i < caps.length → (caps.getD i default).len ≠ -1 := by
  intro i hi hl hcon
  rw [hasUnfinished, List.any_eq_false] at h
  have hlen : i < (caps.take level).length := by
    rw [List.length_take]
    omega
  have hel : (caps.take level).get ⟨i, hlen⟩ = caps.getD i default := by
    rw [List.get_eq_getElem, List.getElem_take, List.getD_eq_getElem?_getD,
      List.getElem?_eq_getElem hl]
    rfl
  have := h ((caps.take level).get ⟨i, hlen⟩) (List.get_mem _ _ hlen)
  rw [hel, hcon] at this
  simp at this

/-- What `pg::lex::match`'s loop guarantees of an `ok` result: the
capture count is bounded by `MAXCAPTURES` and, when a match was found,
it is at least 1, the span is ordered and inside the subject, and every
reported slot is finished with non-negative length or a position. -/
theorem searchLoop_props (env : Env) (anchor : Bool) :
    ∀ (n s : Nat) (st : St) (mr : MatchResult),
      env.subject.length + 1 - s ≤ n →
      s ≤ env.subject.length →
      st.level = 0 →
      st.captures.length = MAXCAPTURES →
      searchLoop env anchor st s = Except.ok mr →
      mr.level ≤ MAXCAPTURES ∧
      (0 ≤ mr.pos.1 →
        1 ≤ mr.level ∧
        mr.pos.1 ≤ mr.pos.2 ∧ mr.pos.2 ≤ (env.subject.length : Int) ∧
        (∀ i, i < mr.level → 0 ≤ (mr.captures.getD i default).len ∨
          (mr.captures.getD i default).len = -2)) := by
  intro n
  induction n with
  | zero =>
    intro s st mr hfuel hs
    exact absurd hfuel (by omega)
  | succ n ih =>
    intro s st mr hfuel hs hlev hlen hrun
    rw [searchLoop] at hrun
    rcases hm : lexMatch MAXCCALLS env st s 0 with ⟨r1, st2⟩
    rw [hm] at hrun
    have hpost := post_lex MAXCCALLS env st s 0
    rw [hm] at hpost
    have hlen2 : st2.captures.length = MAXCAPTURES := by
      have := hpost.1
      dsimp only at this
      omega
    match r1, hrun with
    | Except.error e, hrun => exact absurd hrun (by simp)
    | Except.ok (some e), hrun =>
      dsimp only at hrun
      by_cases hu : hasUnfinished st2.captures st2.level = true
      · rw [if_pos hu] at hrun
        exact absurd hrun (by simp)
      · rw [if_neg hu] at hrun
        simp only [Except.ok.injEq] at hrun
        subst hrun
        have hsucc := hpost.2.2.2.2 e rfl hs
        have hcw : capwf st2 e := hsucc.2.2 (fun i hi => absurd hi (by omega))
        have hl2 : st2.level ≤ MAXCAPTURES := hpost.2.2.1 (by omega)
        have hM : MAXCAPTURES = 32 := rfl
        rw [installWholeMatch]
        by_cases h0 : st2.level = 0
        · rw [if_pos h0]
          refine ⟨show (1 : Nat) ≤ MAXCAPTURES by omega,
            fun _ => ⟨show (1 : Nat) ≤ 1 by omega, ?_, ?_, ?_⟩⟩
          · exact Int.ofNat_le.mpr hsucc.1
          · exact Int.ofNat_le.mpr hsucc.2.1
          · intro i hi
            have hi0 : i = 0 := by
              have : i < 1 := hi
              omega
            subst hi0
            show 0 ≤ ((st2.captures.set 0 _).getD 0 default).len ∨ _
            rw [getD_set, if_pos ⟨rfl, by omega⟩]
            left
            dsimp only
            omega
        · rw [if_neg h0]
          refine ⟨show st2.level ≤ MAXCAPTURES from hl2,
            fun _ => ⟨show (1 : Nat) ≤ st2.level by omega, ?_, ?_, ?_⟩⟩
          · exact Int.ofNat_le.mpr hsucc.1
          · exact Int.ofNat_le.mpr hsucc.2.1
          · intro i hi
            have hi2 : i < st2.level := hi
            have hne1 := hasUnfinished_false st2.captures st2.level
              (by rcases hb : hasUnfinished st2.captures st2.level with _ | _
                  · rfl
                  · exact absurd hb hu) i hi2 (by omega)
            rcases hcw i hi2 with hc | hc | hc
            · exact Or.inl hc
            · exact Or.inr hc
            · exact absurd hc.1 hne1
    | Except.ok none, hrun =>
      dsimp only at hrun
      have hfr : Frame st st2 := hpost.2.2.2.1 rfl
      by_cases ha : anchor = true
      · rw [if_pos ha] at hrun
        simp only [Except.ok.injEq] at hrun
        subst hrun
        refine ⟨show st2.level ≤ MAXCAPTURES by have := hfr.2.1; omega,
          fun hcon => absurd hcon (by simp)⟩
      · rw [if_neg ha] at hrun
        by_cases hlt : s < env.subject.length
        · rw [if_pos hlt] at hrun
          exact ih (s + 1) (reprep st2) mr (by omega) (by omega) rfl
            (by show st2.captures.length = MAXCAPTURES; omega) hrun
        · rw [if_neg hlt] at hrun
          simp only [Except.ok.injEq] at hrun
          subst hrun
          refine ⟨show (0 : Nat) ≤ MAXCAPTURES from Nat.zero_le _,
            fun hcon => absurd hcon (by simp)⟩

/-! ### Concrete runs of the core

Single match attempts on concrete inputs, evaluated through the
equational lemmas of the well-founded definitions.  The drivers'
plumbing around them is definitional, so whole-search evaluations
assemble these runs step by step. -/

set_option maxRecDepth 8000
set_option maxHeartbeats 1600000

theorem run_b0 :
    lexMatch MAXCCALLS ⟨[98], [98], 0⟩ initSt 0 0 = (Except.ok (some 1), initSt) := by
  simp [lexMatch, matchBody, dflt, startCapture, endCapture,
    maxExpand, maxTry, minExpand, countRun, singlematch, matchbracketclass, brkLoop,
    classend, bracketScan, matchbalance, balScan, match_capture, capLenZ, sliceEq,
    setLen, highestUnfinished, pread, sread, initSt, MAXCCALLS, MAXCAPTURES,
    match_class, List.replicate]

theorem run_bal0 :
    lexMatch MAXCCALLS ⟨[40, 40], [37, 98, 40], 0⟩ initSt 0 0 =
      (Except.ok none, initSt) := by
  rw [lexMatch, if_neg (by decide),
    mB_bal_none _ ⟨[40, 40], [37, 98, 40], 0⟩ initSt 0 0 (by decide) (by decide)
      (by decide) (by decide) (by decide)
      (by simp [matchbalance, balScan, sread, pread])]

theorem run_bal1 :
    lexMatch MAXCCALLS ⟨[40, 40], [37, 98, 40], 0⟩ initSt 1 0 =
      (Except.ok none, initSt) := by
  rw [lexMatch, if_neg (by decide),
    mB_bal_none _ ⟨[40, 40], [37, 98, 40], 0⟩ initSt 1 0 (by decide) (by decide)
      (by decide) (by decide) (by decide)
      (by simp [matchbalance, balScan, sread, pread])]

theorem run_bal2 :
    lexMatch MAXCCALLS ⟨[40, 40], [37, 98, 40], 0⟩ initSt 2 0 =
      (Except.ok none, initSt) := by
  simp [lexMatch, matchBody, dflt, startCapture, endCapture,
    maxExpand, maxTry, minExpand, countRun, singlematch, matchbracketclass, brkLoop,
    classend, bracketScan, matchbalance, balScan, match_capture, capLenZ, sliceEq,
    setLen, highestUnfinished, pread, sread, initSt, MAXCCALLS, MAXCAPTURES,
    match_class, List.replicate]

theorem run_fr_x :
    lexMatch MAXCCALLS ⟨[97, 98], [97, 98, 37, 102, 91, 120, 93], 120⟩ initSt 0 0 =
      (Except.ok (some 2), initSt) := by
  rw [lexMatch, if_neg (by decide),
    mB_dflt _ ⟨[97, 98], [97, 98, 37, 102, 91, 120, 93], 120⟩ initSt 0 0
      (by decide) (by decide) (by decide) (by decide) (by decide) (by decide) (by decide),
    df_bare _ _ initSt 0 0 1 (by simp [classend, pread]) (by decide) (by decide)
      (by decide) (by decide) (by decide),
    mB_dflt _ ⟨[97, 98], [97, 98, 37, 102, 91, 120, 93], 120⟩ initSt 1 1
      (by decide) (by decide) (by decide) (by decide) (by decide) (by decide) (by decide),
    df_bare _ _ initSt 1 1 2 (by simp [classend, pread]) (by decide) (by decide)
      (by decide) (by decide) (by decide),
    mB_f_ok _ ⟨[97, 98], [97, 98, 37, 102, 91, 120, 93], 120⟩ initSt 2 2 7
      (by decide) (by decide) (by decide) (by decide) (by decide) (by decide) (by decide)
      (by simp [classend, bracketScan, pread]),
    if_pos (by
      refine ⟨by simp [matchbracketclass, brkLoop, match_class, pread, sread], ?_⟩
      simp [matchbracketclass, brkLoop, match_class, pread, sread]),
    mB_end _ ⟨[97, 98], [97, 98, 37, 102, 91, 120, 93], 120⟩ initSt 2 7 (by decide)]

theorem run_fr_n0 :
    lexMatch MAXCCALLS ⟨[97, 98], [97, 98, 37, 102, 91, 120, 93], 0⟩ initSt 0 0 =
      (Except.ok none, initSt) := by
  rw [lexMatch, if_neg (by decide),
    mB_dflt _ ⟨[97, 98], [97, 98, 37, 102, 91, 120, 93], 0⟩ initSt 0 0
      (by decide) (by decide) (by decide) (by decide) (by decide) (by decide) (by decide),
    df_bare _ _ initSt 0 0 1 (by simp [classend, pread]) (by decide) (by decide)
      (by decide) (by decide) (by decide),
    mB_dflt _ ⟨[97, 98], [97, 98, 37, 102, 91, 120, 93], 0⟩ initSt 1 1
      (by decide) (by decide) (by decide) (by decide) (by decide) (by decide) (by decide),
    df_bare _ _ initSt 1 1 2 (by simp [classend, pread]) (by decide) (by decide)
      (by decide) (by decide) (by decide),
    mB_f_ok _ ⟨[97, 98], [97, 98, 37, 102, 91, 120, 93], 0⟩ initSt 2 2 7
      (by decide) (by decide) (by decide) (by decide) (by decide) (by decide) (by decide)
      (by simp [classend, bracketScan, pread]),
    if_neg (by
      intro hcon
      have := hcon.2
      simp [matchbracketclass, brkLoop, match_class, pread, sread] at this)]

theorem run_fr_n1 :
    lexMatch MAXCCALLS ⟨[97, 98], [97, 98, 37, 102, 91, 120, 93], 0⟩ initSt 1 0 =
      (Except.ok none, initSt) := by
  simp [lexMatch, matchBody, dflt, startCapture, endCapture,
    maxExpand, maxTry, minExpand, countRun, singlematch, matchbracketclass, brkLoop,
    classend, bracketScan, matchbalance, balScan, match_capture, capLenZ, sliceEq,
    setLen, highestUnfinished, pread, sread, initSt, MAXCCALLS, MAXCAPTURES,
    match_class, List.replicate]

theorem run_fr_n2 :
    lexMatch MAXCCALLS ⟨[97, 98], [97, 98, 37, 102, 91, 120, 93], 0⟩ initSt 2 0 =
      (Except.ok none, initSt) := by
  simp [lexMatch, matchBody, dflt, startCapture, endCapture,
    maxExpand, maxTry, minExpand, countRun, singlematch, matchbracketclass, brkLoop,
    classend, bracketScan, matchbalance, balScan, match_capture, capLenZ, sliceEq,
    setLen, highestUnfinished, pread, sread, initSt, MAXCCALLS, MAXCAPTURES,
    match_class, List.replicate]

theorem run_g0 :
    lexMatch MAXCCALLS ⟨[97, 97], [97], 0⟩ initSt 0 0 =
      (Except.ok (some 1), initSt) := by
  simp [lexMatch, matchBody, dflt, startCapture, endCapture,
    maxExpand, maxTry, minExpand, countRun, singlematch, matchbracketclass, brkLoop,
    classend, bracketScan, matchbalance, balScan, match_capture, capLenZ, sliceEq,
    setLen, highestUnfinished, pread, sread, initSt, MAXCCALLS, MAXCAPTURES,
    match_class, List.replicate]

theorem run_g1 :
    lexMatch MAXCCALLS ⟨[97, 97], [97], 0⟩ initSt 1 0 =
      (Except.ok (some 2), initSt) := by
  simp [lexMatch, matchBody, dflt, startCapture, endCapture,
    maxExpand, maxTry, minExpand, countRun, singlematch, matchbracketclass, brkLoop,
    classend, bracketScan, matchbalance, balScan, match_capture, capLenZ, sliceEq,
    setLen, highestUnfinished, pread, sread, initSt, MAXCCALLS, MAXCAPTURES,
    match_class, List.replicate]

theorem run_g2 :
    lexMatch MAXCCALLS ⟨[97, 97], [97], 0⟩ initSt 2 0 =
      (Except.ok none, initSt) := by
  simp [lexMatch, matchBody, dflt, startCapture, endCapture,
    maxExpand, maxTry, minExpand, countRun, singlematch, matchbracketclass, brkLoop,
    classend, bracketScan, matchbalance, balScan, match_capture, capLenZ, sliceEq,
    setLen, highestUnfinished, pread, sread, initSt, MAXCCALLS, MAXCAPTURES,
    match_class, List.replicate]

theorem run_cap0 :
    lexMatch MAXCCALLS ⟨[97], [40, 97, 41], 0⟩ initSt 0 0 =
      (Except.ok (some 1), ⟨1, Capture.mk 0 1 :: List.replicate 31 ⟨0, -1⟩⟩) := by
  simp [lexMatch, matchBody, dflt, startCapture, endCapture,
    maxExpand, maxTry, minExpand, countRun, singlematch, matchbracketclass, brkLoop,
    classend, bracketScan, matchbalance, balScan, match_capture, capLenZ, sliceEq,
    setLen, highestUnfinished, pread, sread, initSt, MAXCCALLS, MAXCAPTURES,
    match_class, List.replicate]

theorem subst_single (env : Env) (s e : Nat) (st : St) :
    substRepl env [98] s e st 0 = Except.ok ([98], st) := by
  rw [substRepl]
  rw [dif_pos (show findPct [98] 0 = [98].length by
    rw [findPct, if_neg (by simp), if_neg (by simp [rread]), findPct, if_pos (by simp)])]
  simp [seg]

/-! ### The claims -/

/-- C1 (counterexample): matching the capture-free pattern `"b"` against
the subject `"b"` succeeds, and the returned result's externally
reported capture count (`size()`) is 1, not 0: the synthetic whole-match
capture installed at slot 0 is counted, because `match_state::level` is
a reference into the returned `basic_match_result`. -/
theorem c1_counterexample :
    lexSearch [98] [98] 0 =
      Except.ok ⟨(0, 1), 1, Capture.mk 0 1 :: List.replicate 31 ⟨0, -1⟩⟩ ∧
    MatchResult.size ⟨(0, 1), 1, Capture.mk 0 1 :: List.replicate 31 ⟨0, -1⟩⟩ = 1 := by
  constructor
  · show searchLoop ⟨[98], [98], 0⟩ false initSt 0 = _
    rw [searchLoop, run_b0]
    rfl
  · rfl

/-- C1 (amended): on success with `level == 0` the driver installs the
synthetic whole-match capture at slot 0, and the externally reported
capture count of a successful search is at least 1 — never 0, contrary
to the spec's claim that it "remains 0". -/
theorem c1_synthetic_capture_count :
    (∀ (st : St) (s e : Nat), st.level = 0 →
      installWholeMatch st s e = ⟨1, st.captures.set 0 ⟨s, (e : Int) - (s : Int)⟩⟩) ∧
    (∀ (subject pattern : List Nat) (oob : Nat) (mr : MatchResult),
      lexSearch subject pattern oob = Except.ok mr → 0 ≤ mr.pos.1 → 1 ≤ mr.size) := by
  constructor
  · intro st s e h0
    rw [installWholeMatch, if_pos h0]
  · intro subject pattern oob mr hrun hpos
    have hp := searchLoop_props ⟨subject, (stripAnchor pattern).1, oob⟩
      (stripAnchor pattern).2 (subject.length + 1) 0 initSt mr
      (by dsimp only; omega) (by dsimp only; omega) rfl (by simp [initSt]) hrun
    exact (hp.2 hpos).1

/-- C2: the anchored substitution `gsub("aa", "^a", "b")` with unlimited
count substitutes twice, returning `"bb"`: the anchored path zeroes the
count at the top of the iteration, but a successful substitution then
decrements it to −1, so the loop does not stop after the first attempt
(contrary to both the spec and the `// break at first iteration`
comment); only a first attempt that fails stops the loop. -/
theorem c2_anchored_gsub_two_substitutions :
    gsubT [97, 97] [94, 97] [98] 0 (-1) = Except.ok [98, 98] := by
  show gsubLoop ⟨[97, 97], [97], 0⟩ true [98] initSt 0 (-1) none [] = _
  rw [gsubLoop, run_g0]
  show (match substRepl ⟨[97, 97], [97], 0⟩ [98] 0 1 initSt 0 with
        | Except.error er => Except.error er
        | Except.ok (out, st3) =>
          gsubLoop ⟨[97, 97], [97], 0⟩ true [98] (reprep st3) 1 (0 - 1) (some 1)
            ([] ++ seg [97, 97] 0 0 ++ out)) = _
  rw [subst_single]
  show gsubLoop ⟨[97, 97], [97], 0⟩ true [98] initSt 1 (-1) (some 1) [98] = _
  rw [gsubLoop, run_g1]
  show (match substRepl ⟨[97, 97], [97], 0⟩ [98] 1 2 initSt 0 with
        | Except.error er => Except.error er
        | Except.ok (out, st3) =>
          gsubLoop ⟨[97, 97], [97], 0⟩ true [98] (reprep st3) 2 (0 - 1) (some 2)
            ([98] ++ seg [97, 97] 1 1 ++ out)) = _
  rw [subst_single]
  show gsubLoop ⟨[97, 97], [97], 0⟩ true [98] initSt 2 (-1) (some 2) [98, 98] = _
  rw [gsubLoop, run_g2]
  show gsubLoop ⟨[97, 97], [97], 0⟩ true [98] initSt 3 0 (some 2) [98, 98] = _
  rw [gsubLoop]
  rfl

/-- C4: matching `"%b("` — a `%b` item followed by only one delimiter
unit — against `"(("` raises no error at all: the guard `p >= p_end`
only fires when both units are missing, so the missing second delimiter
is read past the pattern end (as NUL) and the scan simply fails,
instead of signalling `balanced_no_arguments` as specified. -/
theorem c4_missing_balance_argument :
    lexSearch [40, 40] [37, 98, 40] 0 =
      Except.ok ⟨(-1, -1), 0, List.replicate 32 ⟨0, -1⟩⟩ ∧
    ∀ e, lexSearch [40, 40] [37, 98, 40] 0 ≠ Except.error e := by
  have h : lexSearch [40, 40] [37, 98, 40] 0 =
      Except.ok ⟨(-1, -1), 0, List.replicate 32 ⟨0, -1⟩⟩ := by
    show searchLoop ⟨[40, 40], [37, 98, 40], 0⟩ false initSt 0 = _
    rw [searchLoop, run_bal0]
    show searchLoop ⟨[40, 40], [37, 98, 40], 0⟩ false initSt 1 = _
    rw [searchLoop, run_bal1]
    show searchLoop ⟨[40, 40], [37, 98, 40], 0⟩ false initSt 2 = _
    rw [searchLoop, run_bal2]
    rfl
  exact ⟨h, fun e hcon => by rw [h] at hcon; cases hcon⟩

/-- C9: the depth budget of the matcher core.  An exhausted budget
signals `pattern_too_complex` before anything else runs; a nonzero
budget enters the body with the budget decremented (and, the budget
being a read-only parameter of the model, it is structurally restored
on every exit path).  Concretely, matching `"a*"` against `"a"` needs
two nested entries: with budget 1 it dies of `pattern_too_complex`,
with the full `MAXCCALLS` budget it succeeds. -/
theorem c9_matchdepth_budget :
    (∀ (env : Env) (st : St) (s p : Nat),
      lexMatch 0 env st s p = (Except.error ErrT.pattern_too_complex, st)) ∧
    (∀ (d : Nat) (env : Env) (st : St) (s p : Nat), d ≠ 0 →
      lexMatch d env st s p = matchBody (d - 1) env st s p) ∧
    lexMatch 1 ⟨[97], [97, 42], 0⟩ initSt 0 0 =
      (Except.error ErrT.pattern_too_complex, initSt) ∧
    (lexMatch MAXCCALLS ⟨[97], [97, 42], 0⟩ initSt 0 0).1 = Except.ok (some 1) := by
  refine ⟨?_, ?_, ?_, ?_⟩
  · intro env st s p
    rw [lexMatch, if_pos rfl]
  · intro d env st s p hd
    rw [lexMatch, if_neg hd]
  · simp [lexMatch, matchBody, dflt, maxExpand, maxTry, countRun, singlematch,
      classend, pread, sread, initSt]
  · simp [lexMatch, matchBody, dflt, maxExpand, maxTry, countRun, singlematch,
      classend, pread, sread, initSt, MAXCCALLS]

/-- C10: the frontier item reads the subject one past its end.  Matching
`"ab%f[x]"` against `"ab"` dispatches the frontier check at the subject
end; the C++ dereferences `*s` there, modelled by the `oob` parameter:
with the out-of-bounds unit `'x'` (120) the search succeeds, with NUL it
fails, so the observable result depends on memory past the subject (the
same unguarded read begins `detail::matchbalance`). -/
theorem c10_frontier_oob_read :
    lexSearch [97, 98] [97, 98, 37, 102, 91, 120, 93] 120 =
      Except.ok ⟨(0, 2), 1, Capture.mk 0 2 :: List.replicate 31 ⟨0, -1⟩⟩ ∧
    lexSearch [97, 98] [97, 98, 37, 102, 91, 120, 93] 0 =
      Except.ok ⟨(-1, -1), 0, List.replicate 32 ⟨0, -1⟩⟩ := by
  constructor
  · show searchLoop ⟨[97, 98], [97, 98, 37, 102, 91, 120, 93], 120⟩ false initSt 0 = _
    rw [searchLoop, run_fr_x]
    rfl
  · show searchLoop ⟨[97, 98], [97, 98, 37, 102, 91, 120, 93], 0⟩ false initSt 0 = _
    rw [searchLoop, run_fr_n0]
    show searchLoop ⟨[97, 98], [97, 98, 37, 102, 91, 120, 93], 0⟩ false initSt 1 = _
    rw [searchLoop, run_fr_n1]
    show searchLoop ⟨[97, 98], [97, 98, 37, 102, 91, 120, 93], 0⟩ false initSt 2 = _
    rw [searchLoop, run_fr_n2]
    rfl

/-- C5: greedy repetition.  The run counter counts exactly the longest
run of consecutive item matches; `max_expand` fails when continuing
fails at every expansion `i, i−1, …, 0`, and otherwise returns the first
non-failing continuation in that decreasing order (attempts stated from
the entry state: failed attempts leave no observable trace); a `+`
suffix first consumes one matching unit unconditionally and then
behaves as `*`, failing if the unit does not match. -/
theorem c5_greedy_expansion :
    ∀ (d : Nat) (env : Env) (st : St) (s p ep : Nat),
      ((∀ k, k < countRun env s p ep → singlematch env (s + k) p ep = true) ∧
        singlematch env (s + countRun env s p ep) p ep = false) ∧
      ((∀ j, j ≤ countRun env s p ep →
          (lexMatch d env st (s + j) (ep + 1)).1 = Except.ok none) →
        (maxExpand d env st s p ep).1 = Except.ok none) ∧
      (∀ j, j ≤ countRun env s p ep →
        (∀ k, j < k → k ≤ countRun env s p ep →
          (lexMatch d env st (s + k) (ep + 1)).1 = Except.ok none) →
        (lexMatch d env st (s + j) (ep + 1)).1 ≠ Except.ok none →
        (maxExpand d env st s p ep).1 = (lexMatch d env st (s + j) (ep + 1)).1) ∧
      (∀ ep2, classend env p = Except.ok ep2 → pread env ep2 = 43 →
        dflt d env st s p =
          if singlematch env s p ep2 = true then maxExpand d env st (s + 1) p ep2
          else (Except.ok none, st)) := by
  intro d env st s p ep
  refine ⟨countRun_spec env p ep env.subject.length s (by omega), ?_, ?_, ?_⟩
  · intro hall
    rw [maxExpand_eq]
    exact maxTry_all_fail d env s ep (countRun env s p ep) st st (eqv_refl st) hall
  · intro j hj habove hne
    rw [maxExpand_eq]
    exact maxTry_first d env s ep (countRun env s p ep) st st (eqv_refl st) j hj habove hne
  · intro ep2 hce h43
    by_cases hsm : singlematch env s p ep2 = true
    · rw [if_pos hsm]
      exact df_plus d env st s p ep2 hce hsm (by simp [h43]) h43
    · rw [if_neg hsm]
      exact df_fail d env st s p ep2 hce hsm (by simp [h43])

/-- C5 (witness): over the subject `"aa"` with pattern `"a*a"`, the
greedy item counts a run of 2 and the first succeeding expansion in
decreasing order is offset 1, continuing to the match end 2. -/
theorem c5_witness :
    (maxExpand 5 ⟨[97, 97], [97, 42, 97], 0⟩ initSt 0 0 1).1 = Except.ok (some 2) ∧
    countRun ⟨[97, 97], [97, 42, 97], 0⟩ 0 0 1 = 2 := by
  have hcr : countRun ⟨[97, 97], [97, 42, 97], 0⟩ 0 0 1 = 2 := by
    simp [countRun, singlematch, pread, sread]
  have ha2 : (lexMatch 5 ⟨[97, 97], [97, 42, 97], 0⟩ initSt (0 + 2) 2).1 =
      Except.ok none := by
    simp [lexMatch, matchBody, dflt, startCapture, endCapture,
      maxExpand, maxTry, minExpand, countRun, singlematch, matchbracketclass, brkLoop,
      classend, bracketScan, matchbalance, balScan, match_capture, capLenZ, sliceEq,
      setLen, highestUnfinished, pread, sread, initSt, MAXCAPTURES, match_class,
      List.replicate]
  have ha1 : (lexMatch 5 ⟨[97, 97], [97, 42, 97], 0⟩ initSt (0 + 1) 2).1 =
      Except.ok (some 2) := by
    simp [lexMatch, matchBody, dflt, startCapture, endCapture,
      maxExpand, maxTry, minExpand, countRun, singlematch, matchbracketclass, brkLoop,
      classend, bracketScan, matchbalance, balScan, match_capture, capLenZ, sliceEq,
      setLen, highestUnfinished, pread, sread, initSt, MAXCAPTURES, match_class,
      List.replicate]
  constructor
  · have h := (c5_greedy_expansion 5 ⟨[97, 97], [97, 42, 97], 0⟩ initSt 0 0 1).2.2.1
    have hres := h 1 (by rw [hcr]; omega)
      (fun k hk1 hk2 => by
        rw [hcr] at hk2
        have hk : k = 2 := by omega
        subst hk
        exact ha2)
      (by rw [ha1]; simp)
    rw [hres, ha1]
  · exact hcr

/-- C6: invariants at the search interface.  The reported capture count
never exceeds `MAXCAPTURES` (32); and at a success (non-sentinel span)
the span is ordered and within the subject, and every reported slot is
`Finished` with non-negative length or `Position` — an `Unfinished` slot
never reaches a successful result, since `check_captures` turns it into
the reported error `capture_not_finished`. -/
theorem c6_success_invariants :
    ∀ (subject pattern : List Nat) (oob : Nat) (mr : MatchResult),
      lexSearch subject pattern oob = Except.ok mr →
      mr.size ≤ MAXCAPTURES ∧
      (0 ≤ mr.pos.1 →
        mr.pos.1 ≤ mr.pos.2 ∧ mr.pos.2 ≤ (subject.length : Int) ∧
        ∀ i, i < mr.size → 0 ≤ (mr.captures.getD i default).len ∨
          (mr.captures.getD i default).len = -2) := by
  intro subject pattern oob mr hrun
  have hp := searchLoop_props ⟨subject, (stripAnchor pattern).1, oob⟩
    (stripAnchor pattern).2 (subject.length + 1) 0 initSt mr
    (by dsimp only; omega) (by dsimp only; omega) rfl (by simp [initSt]) hrun
  exact ⟨hp.1, fun hpos =>
    ⟨(hp.2 hpos).2.1, (hp.2 hpos).2.2.1, (hp.2 hpos).2.2.2⟩⟩

/-- C6 (witness): the invariants instantiated at the successful search
of `"(a)"` over `"a"`. -/
theorem c6_witness :
    MatchResult.size ⟨(0, 1), 1, Capture.mk 0 1 :: List.replicate 31 ⟨0, -1⟩⟩ ≤
      MAXCAPTURES ∧
    (0 ≤ (MatchResult.mk (0, 1) 1 (Capture.mk 0 1 :: List.replicate 31 ⟨0, -1⟩)).pos.1 →
      (MatchResult.mk (0, 1) 1 (Capture.mk 0 1 :: List.replicate 31 ⟨0, -1⟩)).pos.1 ≤
        (MatchResult.mk (0, 1) 1 (Capture.mk 0 1 :: List.replicate 31 ⟨0, -1⟩)).pos.2 ∧
      (MatchResult.mk (0, 1) 1 (Capture.mk 0 1 :: List.replicate 31 ⟨0, -1⟩)).pos.2 ≤
        (([97] : List Nat).length : Int) ∧
      ∀ i, i < MatchResult.size ⟨(0, 1), 1, Capture.mk 0 1 :: List.replicate 31 ⟨0, -1⟩⟩ →
        0 ≤ (((MatchResult.mk (0, 1) 1
          (Capture.mk 0 1 :: List.replicate 31 ⟨0, -1⟩)).captures.getD i default)).len ∨
        (((MatchResult.mk (0, 1) 1
          (Capture.mk 0 1 :: List.replicate 31 ⟨0, -1⟩)).captures.getD i default)).len = -2) :=
  c6_success_invariants [97] [40, 97, 41] 0
    ⟨(0, 1), 1, Capture.mk 0 1 :: List.replicate 31 ⟨0, -1⟩⟩
    (by show searchLoop ⟨[97], [40, 97, 41], 0⟩ false initSt 0 = _
        rw [searchLoop, run_cap0]
        rfl)

/-- C7 (counterexample): a failed capture-open step does not leave the
slot array exactly as before: opening at subject position 1 over
`"ba"` with pattern remainder `"x)"` fails, the undo resets the slot's
`len` to `Unfinished`, but the recorded start stays 1, while before the
step the slot was `⟨0, -1⟩`. -/
theorem c7_counterexample :
    (startCapture 5 ⟨[98, 97], [40, 120, 41], 0⟩ initSt 1 1).1 = Except.ok none ∧
    (startCapture 5 ⟨[98, 97], [40, 120, 41], 0⟩ initSt 1 1).2.captures.getD 0 default =
      ⟨1, -1⟩ ∧
    initSt.captures.getD 0 default = ⟨0, -1⟩ := by
  refine ⟨?_, ?_, by simp [initSt, List.replicate]⟩ <;>
  simp [lexMatch, matchBody, dflt, startCapture, endCapture,
    maxExpand, maxTry, minExpand, countRun, singlematch, matchbracketclass, brkLoop,
    classend, bracketScan, matchbalance, balScan, match_capture, capLenZ, sliceEq,
    setLen, highestUnfinished, pread, sread, initSt, MAXCAPTURES, match_class,
    List.replicate]

/-- C7 (amended): what a failed capture step actually restores.  A
failed open restores `level` and every slot below it, and leaves the
opened slot (at index `level`) with `len` reset to `Unfinished` but with
its `init` updated to the subject position of the attempt; a failed
close restores `level` and every slot below it exactly (the closed
slot's `init` was never changed and its `len` reverts to
`Unfinished`). -/
theorem c7_capture_undo :
    (∀ (d : Nat) (env : Env) (st : St) (s p : Nat),
      (startCapture d env st s p).1 = Except.ok none →
        (startCapture d env st s p).2.level = st.level ∧
        (∀ i, i < st.level →
          (startCapture d env st s p).2.captures.getD i default =
            st.captures.getD i default) ∧
        (st.level < st.captures.length →
          (startCapture d env st s p).2.captures.getD st.level default = ⟨s, -1⟩)) ∧
    (∀ (d : Nat) (env : Env) (st : St) (s p : Nat),
      (endCapture d env st s p).1 = Except.ok none →
        (endCapture d env st s p).2.level = st.level ∧
        (∀ i, i < st.level →
          (endCapture d env st s p).2.captures.getD i default =
            st.captures.getD i default)) := by
  constructor
  · intro d env st s p hfail
    by_cases hover : MAXCAPTURES ≤ st.level
    · rw [sc_over d env st s p hover] at hfail
      exact absurd hfail (by simp)
    · rw [sc_run d env st s p hover] at hfail ⊢
      rcases hres : lexMatch d env
          ⟨st.level + 1, st.captures.set st.level
            ⟨s, if pread env p = 41 then -2 else -1⟩⟩ s
          (if pread env p = 41 then p + 1 else p) with ⟨r1, stx⟩
      rw [hres] at hfail
      have hp := post_lex d env
        ⟨st.level + 1, st.captures.set st.level
          ⟨s, if pread env p = 41 then -2 else -1⟩⟩ s
        (if pread env p = 41 then p + 1 else p)
      rw [hres] at hp
      match r1, hfail with
      | Except.ok (some e), hfail => simp at hfail
      | Except.error e, hfail => simp at hfail
      | Except.ok none, _ =>
        have hfr := hp.2.2.2.1 rfl
        have hlev : stx.level = st.level + 1 := hfr.2.1
        have hlen : stx.captures.length = st.captures.length := by
          have := hp.1
          dsimp only at this
          rw [this, List.length_set]
        refine ⟨by dsimp only; omega, ?_, ?_⟩
        · intro i hi
          show (setLen stx.captures (stx.level - 1) (-1)).getD i default = _
          rw [getD_setLen, if_neg (fun hcon => by omega),
            hfr.2.2.1 i (by dsimp only; omega), getD_set,
            if_neg (fun hcon => by omega)]
        · intro hlt
          show (setLen stx.captures (stx.level - 1) (-1)).getD st.level default = _
          rw [getD_setLen, if_pos ⟨by omega, by omega⟩,
            show stx.level - 1 = st.level by omega,
            hfr.2.2.1 st.level (by dsimp only; omega), getD_set,
            if_pos ⟨rfl, hlt⟩]
  · intro d env st s p hfail
    rcases hhu : highestUnfinished st.captures st.level with _ | i
    · rw [ec_none d env st s p hhu] at hfail
      exact absurd hfail (by simp)
    · obtain ⟨hilt, hlen1⟩ := highestUnfinished_some st.captures st.level i hhu
      rw [ec_some d env st s p i hhu] at hfail ⊢
      rcases hres : lexMatch d env
          ⟨st.level, setLen st.captures i
            ((s : Int) - ((st.captures.getD i default).init : Int))⟩ s p with ⟨r1, stx⟩
      rw [hres] at hfail
      have hp := post_lex d env
        ⟨st.level, setLen st.captures i
          ((s : Int) - ((st.captures.getD i default).init : Int))⟩ s p
      rw [hres] at hp
      match r1, hfail with
      | Except.ok (some e), hfail => simp at hfail
      | Except.error e, hfail => simp at hfail
      | Except.ok none, _ =>
        have hfr := hp.2.2.2.1 rfl
        have hlev : stx.level = st.level := hfr.2.1
        have hlen : stx.captures.length = st.captures.length := by
          have := hp.1
          dsimp only at this
          rw [this, length_setLen]
        refine ⟨by dsimp only; omega, ?_⟩
        intro j hj
        show (setLen stx.captures i (-1)).getD j default = _
        by_cases hji : i = j
        · subst hji
          by_cases hin : i < st.captures.length
          · rw [getD_setLen, if_pos ⟨rfl, by omega⟩,
              hfr.2.2.1 i (by dsimp only; omega), getD_setLen, if_pos ⟨rfl, hin⟩]
            dsimp only
            rcases hcap : st.captures.getD i default with ⟨cinit, clen⟩
            rw [hcap] at hlen1
            dsimp only at hlen1 ⊢
            rw [hlen1]
          · rw [getD_setLen, if_neg (fun hcon => by omega),
              hfr.2.2.1 i (by dsimp only; omega), getD_setLen,
              if_neg (fun hcon => by omega)]
        · rw [getD_setLen, if_neg (fun hcon => hji hcon.1),
            hfr.2.2.1 j (by dsimp only; omega), getD_setLen,
            if_neg (fun hcon => hji hcon.1)]

theorem seg_drop (xs : List Nat) (a L : Nat) :
    seg xs a (a + L) = (xs.drop a).take L := by
  rw [seg, List.drop_take]
  congr 1
  omega

/-- C3: backreference semantics of `detail::match_capture`, dispatched
on a digit unit `c` (`'1'`–`'9'`, so slot `c − '1'` = d−1).  It raises
`capture_invalid_index` exactly when the slot index is outside
`[0, level)` or the slot is `Unfinished`; for an in-range `Finished`
slot of length `L` it returns the advanced position `s + L` exactly
when the subject carries, at the current position, an equal-length
unit-for-unit copy of the slot's recorded text, and an ordinary failure
(`ok none`, no error) otherwise; an in-range `Position` slot, having no
text, is an ordinary failure as well (its `-2` length turns into a huge
`size_t` count). -/
theorem c3_backreference_semantics (env : Env) (st : St) (s c : Nat)
    (hc1 : 49 ≤ c) (hc2 : c ≤ 57) (hs : s ≤ env.subject.length) :
    (match_capture env st s c = Except.error ErrT.capture_invalid_index ↔
      st.level ≤ c - 49 ∨ (st.captures.getD (c - 49) default).len = -1) ∧
    (∀ L : Nat, c - 49 < st.level →
      (st.captures.getD (c - 49) default).len = (L : Int) →
      L < 2 ^ 64 →
      (st.captures.getD (c - 49) default).init + L ≤ env.subject.length →
      ((match_capture env st s c = Except.ok (some (s + L)) ↔
        s + L ≤ env.subject.length ∧
        seg env.subject s (s + L) =
          seg env.subject (st.captures.getD (c - 49) default).init
            ((st.captures.getD (c - 49) default).init + L)) ∧
       (match_capture env st s c = Except.ok none ↔
        ¬(s + L ≤ env.subject.length ∧
          seg env.subject s (s + L) =
            seg env.subject (st.captures.getD (c - 49) default).init
              ((st.captures.getD (c - 49) default).init + L))))) ∧
    (c - 49 < st.level →
      (st.captures.getD (c - 49) default).len = -2 →
      env.subject.length < 2 ^ 64 - 2 →
      match_capture env st s c = Except.ok none) := by
  refine ⟨?_, ?_, ?_⟩
  · constructor
    · intro h
      by_cases hch : c < 49 ∨ st.level ≤ c - 49 ∨
          (st.captures.getD (c - 49) default).len = -1
      · rcases hch with h1 | h2 | h3
        · omega
        · exact Or.inl h2
        · exact Or.inr h3
      · rw [match_capture, if_neg hch] at h
        split at h
        · cases h
        · cases h
    · intro h
      rw [match_capture, if_pos (show c < 49 ∨ st.level ≤ c - 49 ∨
          (st.captures.getD (c - 49) default).len = -1 by
        rcases h with h | h
        · exact Or.inr (Or.inl h)
        · exact Or.inr (Or.inr h))]
  · intro L hin hfin hL hrec
    have hcond : ¬(c < 49 ∨ st.level ≤ c - 49 ∨
        (st.captures.getD (c - 49) default).len = -1) := by
      intro hcon
      rcases hcon with h1 | h2 | h3
      · omega
      · omega
      · rw [hfin] at h3
        omega
    have hlen : capLenZ st c = L := by
      rw [capLenZ, hfin, Int.emod_eq_of_lt (by omega)
        (show (L : Int) < (2 ^ 64 : Int) by exact_mod_cast hL)]
      simp
    rw [match_capture, if_neg hcond, hlen]
    have hsegeq : (sliceEq env (st.captures.getD (c - 49) default).init s L = true) ↔
        (seg env.subject s (s + L) =
         seg env.subject (st.captures.getD (c - 49) default).init
           ((st.captures.getD (c - 49) default).init + L)) := by
      rw [sliceEq, decide_eq_true_iff, seg_drop, seg_drop]
      constructor
      · intro h
        exact h.symm
      · intro h
        exact h.symm
    constructor
    · constructor
      · intro h
        split at h
        · rename_i hcc
          exact ⟨by omega, hsegeq.mp hcc.2⟩
        · simp at h
      · intro hcl
        rw [if_pos ⟨by omega, hsegeq.mpr hcl.2⟩]
    · constructor
      · intro h hcl
        rw [if_pos ⟨by omega, hsegeq.mpr hcl.2⟩] at h
        simp at h
      · intro hncl
        rw [if_neg (fun hcc => hncl ⟨by omega, hsegeq.mp hcc.2⟩)]
  · intro hin hpos hsmall
    have hcond : ¬(c < 49 ∨ st.level ≤ c - 49 ∨
        (st.captures.getD (c - 49) default).len = -1) := by
      intro hcon
      rcases hcon with h1 | h2 | h3
      · omega
      · omega
      · rw [hpos] at h3
        omega
    have hz : capLenZ st c = 2 ^ 64 - 2 := by
      rw [capLenZ, hpos]
      decide
    rw [match_capture, if_neg hcond, hz,
      if_neg (fun hcc => by have := hcc.1; omega)]

/-- C3 (witness): over the subject `"abab"`, a finished slot `(0, 2)`
backreferenced at position 2 matches the copy `"ab"` and advances to 4;
with `level = 0` the same dispatch raises `capture_invalid_index`. -/
theorem c3_witness :
    match_capture ⟨[97, 98, 97, 98], [], 0⟩ ⟨1, [⟨0, 2⟩]⟩ 2 49 =
      Except.ok (some 4) ∧
    match_capture ⟨[97, 98, 97, 98], [], 0⟩ ⟨0, [⟨0, 2⟩]⟩ 2 49 =
      Except.error ErrT.capture_invalid_index := by
  constructor
  · have h := (c3_backreference_semantics ⟨[97, 98, 97, 98], [], 0⟩ ⟨1, [⟨0, 2⟩]⟩ 2 49
      (by decide) (by decide) (by decide)).2.1 2 (by decide) (by decide) (by decide)
      (by decide)
    exact h.1.mpr ⟨by decide, by decide⟩
  · have h := (c3_backreference_semantics ⟨[97, 98, 97, 98], [], 0⟩ ⟨0, [⟨0, 2⟩]⟩ 2 49
      (by decide) (by decide) (by decide)).1
    exact h.mpr (Or.inl (by decide))

theorem run_x0 (a b c : Nat) (ha : a ≠ 120) (cp : List Capture) :
    lexMatch MAXCCALLS ⟨[a, b, c], [120, 42], 0⟩ ⟨0, cp⟩ 0 0 =
      (Except.ok (some 0), ⟨0, cp⟩) := by
  simp [lexMatch, matchBody, dflt, startCapture, endCapture,
    maxExpand, maxTry, minExpand, countRun, singlematch, matchbracketclass, brkLoop,
    classend, bracketScan, matchbalance, balScan, match_capture, capLenZ, sliceEq,
    setLen, highestUnfinished, pread, sread, MAXCCALLS, MAXCAPTURES,
    match_class, Ne.symm ha]

theorem run_x1 (a b c : Nat) (hb : b ≠ 120) (cp : List Capture) :
    lexMatch MAXCCALLS ⟨[a, b, c], [120, 42], 0⟩ ⟨0, cp⟩ 1 0 =
      (Except.ok (some 1), ⟨0, cp⟩) := by
  simp [lexMatch, matchBody, dflt, startCapture, endCapture,
    maxExpand, maxTry, minExpand, countRun, singlematch, matchbracketclass, brkLoop,
    classend, bracketScan, matchbalance, balScan, match_capture, capLenZ, sliceEq,
    setLen, highestUnfinished, pread, sread, MAXCCALLS, MAXCAPTURES,
    match_class, Ne.symm hb]

theorem run_x2 (a b c : Nat) (hc : c ≠ 120) (cp : List Capture) :
    lexMatch MAXCCALLS ⟨[a, b, c], [120, 42], 0⟩ ⟨0, cp⟩ 2 0 =
      (Except.ok (some 2), ⟨0, cp⟩) := by
  simp [lexMatch, matchBody, dflt, startCapture, endCapture,
    maxExpand, maxTry, minExpand, countRun, singlematch, matchbracketclass, brkLoop,
    classend, bracketScan, matchbalance, balScan, match_capture, capLenZ, sliceEq,
    setLen, highestUnfinished, pread, sread, MAXCCALLS, MAXCAPTURES,
    match_class, Ne.symm hc]

theorem run_x3 (a b c : Nat) (cp : List Capture) :
    lexMatch MAXCCALLS ⟨[a, b, c], [120, 42], 0⟩ ⟨0, cp⟩ 3 0 =
      (Except.ok (some 3), ⟨0, cp⟩) := by
  simp [lexMatch, matchBody, dflt, startCapture, endCapture,
    maxExpand, maxTry, minExpand, countRun, singlematch, matchbracketclass, brkLoop,
    classend, bracketScan, matchbalance, balScan, match_capture, capLenZ, sliceEq,
    setLen, highestUnfinished, pread, sread, MAXCCALLS, MAXCAPTURES,
    match_class]

/-- C8: iterating `"x*"` over a 3-unit subject without `'x'` yields
exactly the four empty matches at offsets 0, 1, 2, 3 in that order
(each step's zero-length result at the previous end forces the cursor
forward by one), and the next increment equals the end iterator, so the
iteration terminates instead of looping on the zero-length matches. -/
theorem c8_zero_length_iteration (a b c : Nat)
    (ha : a ≠ 120) (hb : b ≠ 120) (hc : c ≠ 120) :
    ∃ i0 i1 i2 i3 i4 : GIter,
      gmatchBegin [a, b, c] [120, 42] 0 = Except.ok i0 ∧
      gmatchStep i0 = Except.ok i1 ∧
      gmatchStep i1 = Except.ok i2 ∧
      gmatchStep i2 = Except.ok i3 ∧
      gmatchStep i3 = Except.ok i4 ∧
      i0.mr.pos = (0, 0) ∧ i1.mr.pos = (1, 1) ∧
      i2.mr.pos = (2, 2) ∧ i3.mr.pos = (3, 3) ∧
      ¬gmatchIterEq i0 (gmatchEnd [a, b, c] [120, 42] 0) ∧
      ¬gmatchIterEq i1 (gmatchEnd [a, b, c] [120, 42] 0) ∧
      ¬gmatchIterEq i2 (gmatchEnd [a, b, c] [120, 42] 0) ∧
      ¬gmatchIterEq i3 (gmatchEnd [a, b, c] [120, 42] 0) ∧
      gmatchIterEq i4 (gmatchEnd [a, b, c] [120, 42] 0) := by
  refine ⟨⟨⟨[a, b, c], [120, 42], 0⟩, 0, some 0,
      ⟨(0, 0), 1, initSt.captures.set 0 ⟨0, 0⟩⟩⟩,
    ⟨⟨[a, b, c], [120, 42], 0⟩, 1, some 1,
      ⟨(1, 1), 1, (initSt.captures.set 0 ⟨0, 0⟩).set 0 ⟨1, 0⟩⟩⟩,
    ⟨⟨[a, b, c], [120, 42], 0⟩, 2, some 2,
      ⟨(2, 2), 1, ((initSt.captures.set 0 ⟨0, 0⟩).set 0 ⟨1, 0⟩).set 0 ⟨2, 0⟩⟩⟩,
    ⟨⟨[a, b, c], [120, 42], 0⟩, 3, some 3,
      ⟨(3, 3), 1,
        (((initSt.captures.set 0 ⟨0, 0⟩).set 0 ⟨1, 0⟩).set 0 ⟨2, 0⟩).set 0 ⟨3, 0⟩⟩⟩,
    ⟨⟨[a, b, c], [120, 42], 0⟩, 4, some 3,
      ⟨(-1, -1), 0,
        (((initSt.captures.set 0 ⟨0, 0⟩).set 0 ⟨1, 0⟩).set 0 ⟨2, 0⟩).set 0 ⟨3, 0⟩⟩⟩,
    ?_, ?_, ?_, ?_, ?_, rfl, rfl, rfl, rfl,
    by simp [gmatchIterEq, gmatchEnd], by simp [gmatchIterEq, gmatchEnd],
    by simp [gmatchIterEq, gmatchEnd], by simp [gmatchIterEq, gmatchEnd],
    ⟨rfl, rfl⟩⟩
  · show gmatchLoop ⟨[a, b, c], [120, 42], 0⟩ ⟨0, initSt.captures⟩ 0 none = _
    rw [gmatchLoop, run_x0 a b c ha initSt.captures]
    rfl
  · show gmatchLoop ⟨[a, b, c], [120, 42], 0⟩ ⟨0, initSt.captures.set 0 ⟨0, 0⟩⟩
      0 (some 0) = _
    rw [gmatchLoop, run_x0 a b c ha (initSt.captures.set 0 ⟨0, 0⟩)]
    show gmatchLoop ⟨[a, b, c], [120, 42], 0⟩ ⟨0, initSt.captures.set 0 ⟨0, 0⟩⟩
      1 (some 0) = _
    rw [gmatchLoop, run_x1 a b c hb (initSt.captures.set 0 ⟨0, 0⟩)]
    rfl
  · show gmatchLoop ⟨[a, b, c], [120, 42], 0⟩
      ⟨0, (initSt.captures.set 0 ⟨0, 0⟩).set 0 ⟨1, 0⟩⟩ 1 (some 1) = _
    rw [gmatchLoop, run_x1 a b c hb ((initSt.captures.set 0 ⟨0, 0⟩).set 0 ⟨1, 0⟩)]
    show gmatchLoop ⟨[a, b, c], [120, 42], 0⟩
      ⟨0, (initSt.captures.set 0 ⟨0, 0⟩).set 0 ⟨1, 0⟩⟩ 2 (some 1) = _
    rw [gmatchLoop, run_x2 a b c hc ((initSt.captures.set 0 ⟨0, 0⟩).set 0 ⟨1, 0⟩)]
    rfl
  · show gmatchLoop ⟨[a, b, c], [120, 42], 0⟩
      ⟨0, ((initSt.captures.set 0 ⟨0, 0⟩).set 0 ⟨1, 0⟩).set 0 ⟨2, 0⟩⟩ 2 (some 2) = _
    rw [gmatchLoop,
      run_x2 a b c hc (((initSt.captures.set 0 ⟨0, 0⟩).set 0 ⟨1, 0⟩).set 0 ⟨2, 0⟩)]
    show gmatchLoop ⟨[a, b, c], [120, 42], 0⟩
      ⟨0, ((initSt.captures.set 0 ⟨0, 0⟩).set 0 ⟨1, 0⟩).set 0 ⟨2, 0⟩⟩ 3 (some 2) = _
    rw [gmatchLoop,
      run_x3 a b c (((initSt.captures.set 0 ⟨0, 0⟩).set 0 ⟨1, 0⟩).set 0 ⟨2, 0⟩)]
    rfl
  · show gmatchLoop ⟨[a, b, c], [120, 42], 0⟩
      ⟨0, (((initSt.captures.set 0 ⟨0, 0⟩).set 0 ⟨1, 0⟩).set 0 ⟨2, 0⟩).set 0 ⟨3, 0⟩⟩
      3 (some 3) = _
    rw [gmatchLoop, run_x3 a b c
      ((((initSt.captures.set 0 ⟨0, 0⟩).set 0 ⟨1, 0⟩).set 0 ⟨2, 0⟩).set 0 ⟨3, 0⟩)]
    show gmatchLoop ⟨[a, b, c], [120, 42], 0⟩
      ⟨0, (((initSt.captures.set 0 ⟨0, 0⟩).set 0 ⟨1, 0⟩).set 0 ⟨2, 0⟩).set 0 ⟨3, 0⟩⟩
      4 (some 3) = _
    rw [gmatchLoop]
    rfl

/-- C8 (witness): the iteration instantiated at the subject `"abc"`. -/
theorem c8_witness :
    ∃ i0 i1 i2 i3 i4 : GIter,
      gmatchBegin [97, 98, 99] [120, 42] 0 = Except.ok i0 ∧
      gmatchStep i0 = Except.ok i1 ∧
      gmatchStep i1 = Except.ok i2 ∧
      gmatchStep i2 = Except.ok i3 ∧
      gmatchStep i3 = Except.ok i4 ∧
      i0.mr.pos = (0, 0) ∧ i1.mr.pos = (1, 1) ∧
      i2.mr.pos = (2, 2) ∧ i3.mr.pos = (3, 3) ∧
      ¬gmatchIterEq i0 (gmatchEnd [97, 98, 99] [120, 42] 0) ∧
      ¬gmatchIterEq i1 (gmatchEnd [97, 98, 99] [120, 42] 0) ∧
      ¬gmatchIterEq i2 (gmatchEnd [97, 98, 99] [120, 42] 0) ∧
      ¬gmatchIterEq i3 (gmatchEnd [97, 98, 99] [120, 42] 0) ∧
      gmatchIterEq i4 (gmatchEnd [97, 98, 99] [120, 42] 0) :=
  c8_zero_length_iteration 97 98 99 (by decide) (by decide) (by decide)

end Lex
